import Mathlib

/-!
Verification development for the document-operation execution engine
(`yb/docdb/doc_operation.cc`): a shallow embedding of the Redis-style
KV-command engine, the QL structured-write engine and the QL
structured-read engine, together with theorems about the claims made by
the natural-language specification of the component.

External collaborators (the sorted store, the write-batch application,
the expression evaluator) are modelled as explicit parameters or, where a
behaviour of theirs decides a property, as definitions whose doc comment
starts with `Modelled from the spec:`.
-/

namespace DocOp

/-! ## Redis data model (`RedisDataType`, `RedisResponsePB`) -/

/-- The Redis value types distinguished by the engine (`RedisDataType`). -/
inductive RedisDataType
  | NONE
  | STRING
  | HASH
  | RSET
  | TIMESERIES
  | SORTEDSET
deriving DecidableEq, Repr

/-- Response status codes of `RedisResponsePB`. -/
inductive RedisStatusCode
  | OK
  | NOT_FOUND
  | WRONG_TYPE
  | INDEX_OUT_OF_BOUNDS
deriving DecidableEq, Repr

/-- The response object of a Redis command (`RedisResponsePB`), restricted to the
fields the embedded commands touch. -/
structure RedisResponse where
  code : Option RedisStatusCode
  int_response : Option Int
  string_response : Option String
  error_message : Option String
deriving DecidableEq, Repr

/-- A response with no field set yet. -/
def emptyRedisResponse : RedisResponse :=
  { code := Option.none, int_response := Option.none,
    string_response := Option.none, error_message := Option.none }

/-- The stored top-level document under a Redis key, as observed by a read at the
operation's read timestamp.  A tombstone at the top level is reported as not-found
by the multi-version read path, mirroring `GetRedisValueType`, which maps
`kTombstone` (and an absent document) to `REDIS_TYPE_NONE`. -/
inductive RedisStored
  | absent
  | tombstone
  | str (s : String)
  | hash
  | rset
  | timeseries
  | sortedset
deriving DecidableEq, Repr

/-- The pair returned by `GetRedisValue`: the observed type and, for strings,
the stored string. -/
structure RedisValue where
  type : RedisDataType
  value : String
deriving DecidableEq, Repr

/-- Embedding of `GetRedisValue` (whole-key read, no subkeys): maps the stored
document to the `RedisValue{type, string}` pair; an absent or tombstoned document
yields `REDIS_TYPE_NONE` with an empty string. -/
def getRedisValue : RedisStored → RedisValue
  | RedisStored.absent => ⟨RedisDataType.NONE, ""⟩
  | RedisStored.tombstone => ⟨RedisDataType.NONE, ""⟩
  | RedisStored.str s => ⟨RedisDataType.STRING, s⟩
  | RedisStored.hash => ⟨RedisDataType.HASH, ""⟩
  | RedisStored.rset => ⟨RedisDataType.RSET, ""⟩
  | RedisStored.timeseries => ⟨RedisDataType.TIMESERIES, ""⟩
  | RedisStored.sortedset => ⟨RedisDataType.SORTEDSET, ""⟩

/-- Embedding of `VerifyTypeAndSetCode` (the `RedisDataType` overload): returns the
status code written into the response and whether the caller should proceed.  An
actual type of `NONE` yields `OK`/proceed when `verify_success_if_missing` is set
and `NOT_FOUND`/stop otherwise; any other mismatch yields `WRONG_TYPE`/stop. -/
def verifyTypeAndSetCode (expected actual : RedisDataType)
    (verify_success_if_missing : Bool) : RedisStatusCode × Bool :=
  if actual = RedisDataType.NONE then
    if verify_success_if_missing then (RedisStatusCode.OK, true)
    else (RedisStatusCode.NOT_FOUND, false)
  else if actual ≠ expected then (RedisStatusCode.WRONG_TYPE, false)
  else (RedisStatusCode.OK, true)

/-- Embedding of `SetOptionalInt`: the integer response is `none_value` when the
observed type is `NONE` and `value` otherwise. -/
def setOptionalInt (type : RedisDataType) (value none_value : Int) : Option Int :=
  some (if type = RedisDataType.NONE then none_value else value)

/-! ## `std::stoll` model and `RedisWriteOperation::ApplyIncr` -/

/-- Largest signed 64-bit integer. -/
def int64Max : Int := 9223372036854775807

/-- Smallest signed 64-bit integer. -/
def int64Min : Int := -9223372036854775808

/-- The two exceptions `std::stoll` can throw. -/
inductive StollError
  | invalidArgument
  | outOfRange
deriving DecidableEq, Repr

/-- The whitespace characters skipped by `std::stoll` (C `isspace`). -/
def isCSpace (c : Char) : Bool :=
  c = ' ' || c = '\t' || c = '\n' || c = '\r' || c = '\x0b' || c = '\x0c'

/-- Numeric value of a list of decimal digits. -/
def digitsVal (ds : List Char) : Nat :=
  ds.foldl (fun a c => a * 10 + (c.toNat - 48)) 0

/-- The range check of `std::stoll`: `out_of_range` for a value that does not
fit in a signed 64-bit integer. -/
def stollRange (v : Int) : Except StollError Int :=
  if v < int64Min ∨ v > int64Max then Except.error StollError.outOfRange
  else Except.ok v

/-- Embedding of `std::stoll(s)` in base 10: skip leading whitespace, read an
optional sign and the longest run of decimal digits; throw `invalid_argument`
if no digits were read, and range-check the value. -/
def stoll (s : String) : Except StollError Int :=
  let cs := s.toList.dropWhile isCSpace
  let signAndRest : Int × List Char :=
    match cs with
    | '-' :: t => (-1, t)
    | '+' :: t => (1, t)
    | _ => (1, cs)
  let ds := signAndRest.2.takeWhile Char.isDigit
  if ds.isEmpty then Except.error StollError.invalidArgument
  else stollRange (signAndRest.1 * (digitsVal ds : Int))

/-- A Redis key (`RedisKeyValuePB`'s key and hash code). -/
structure RedisKeyValue where
  hash_code : Nat
  key : String
deriving DecidableEq, Repr

/-- A document mutation appended to the write batch by a Redis string command. -/
inductive RedisMutation
  | setPrimitive (hash_code : Nat) (key : String) (value : String)
deriving DecidableEq, Repr

/-- Embedding of `RedisWriteOperation::ApplyIncr`: reads the current value, checks
it is a string (with `verify_success_if_missing` left at its default `false`),
parses it with `std::stoll`, checks signed-64-bit overflow of the addition, and
either reports a domain error in the response (returning success with no
mutation) or appends the incremented value as a string.  Returns the final
response and the list of mutations appended to the write batch. -/
def applyIncr (kv : RedisKeyValue) (stored : RedisStored) (incr : Int) :
    RedisResponse × List RedisMutation :=
  let value := getRedisValue stored
  let vc := verifyTypeAndSetCode RedisDataType.STRING value.type false
  let resp : RedisResponse := { emptyRedisResponse with code := some vc.1 }
  if !vc.2 then (resp, [])
  else
    match stoll value.value with
    | Except.error _ =>
        ({ resp with error_message := some "Can not parse incr argument as a number" }, [])
    | Except.ok old_value =>
        let new_value := old_value + incr
        if (incr < 0 ∧ old_value < 0 ∧ incr < int64Min - old_value) ∨
           (incr > 0 ∧ old_value > 0 ∧ incr > int64Max - old_value) then
          ({ resp with error_message := some "Increment would overflow" }, [])
        else
          ({ resp with int_response := some new_value },
           [RedisMutation.setPrimitive kv.hash_code kv.key (toString new_value)])

/-- Embedding of `RedisReadOperation::ExecuteExists`: reads the value, sets the
code to `OK` unconditionally and the integer response to 1 unless the observed
type is `NONE`, via `SetOptionalInt`. -/
def executeExists (stored : RedisStored) : RedisResponse :=
  let value := getRedisValue stored
  { emptyRedisResponse with
    code := some RedisStatusCode.OK,
    int_response := setOptionalInt value.type 1 0 }

/-! ## Sorted-set ADD (`RedisWriteOperation::ApplySet`, `REDIS_TYPE_SORTEDSET` branch)

Scores are `double`s in the source; the claims about the sorted-set ADD depend
only on score equality and on which members are written, so scores are embedded
as exact integers.  `SubDocument` children are embedded as association lists with
`SetChild` overwrite semantics; their canonical sort order is immaterial to the
claims and is not modelled. -/

/-- A sorted-set score (a `double` subkey in the source, embedded exactly). -/
abbrev ZScore := Int

/-- A sorted-set member (a string value in the source). -/
abbrev ZMember := String

/-- The `SortedSetOptionsPB` update options. -/
inductive ZUpdateOptions
  | UNONE
  | NX
  | XX
deriving DecidableEq, Repr

/-- The `SortedSetOptionsPB` carried by a sorted-set `SET` request. -/
structure ZAddOptions where
  update_options : ZUpdateOptions
  ch : Bool
  incr : Bool
deriving DecidableEq, Repr

/-- Assignment into an association list with `SubDocument::SetChild` semantics:
overwrite the child at the key if present, otherwise append it. -/
def assocSet {α β : Type} [DecidableEq α] : List (α × β) → α → β → List (α × β)
  | [], k, v => [(k, v)]
  | (k', v') :: t, k, v =>
      if k' = k then (k, v) :: t else (k', v') :: assocSet t k v

/-- Lookup in an association list. -/
def assocGet {α β : Type} [DecidableEq α] : List (α × β) → α → Option β
  | [], _ => Option.none
  | (k', v') :: t, k => if k' = k then some v' else assocGet t k

/-- The store state relevant to the sorted-set commands: the cardinality counter
child (`kCounter`, absent if never written) and the reverse member-to-score map
(`kSSReverse`). -/
structure ZState where
  card : Option Int
  reverse : List (ZMember × ZScore)
deriving DecidableEq, Repr

/-- Read of the reverse map (`GetSubDocument` on the `kSSReverse` subkey for a
member): the stored score, if the member is present. -/
def zlookup (st : ZState) (m : ZMember) : Option ZScore :=
  assocGet st.reverse m

/-- Embedding of `GetCardinality`: the stored counter, or 0 when absent. -/
def getCardinality (st : ZState) : Int :=
  match st.card with
  | some c => c
  | Option.none => 0

/-- A child of the forward score-to-member map built by an ADD: a member marked
either live (`PrimitiveValue()`, i.e. null) or deleted (`kTombstone`). -/
inductive ZFwdVal
  | null
  | tombstone
deriving DecidableEq, Repr

/-- `GetOrAddChild` on the forward map at a score followed by `SetChild` of a
member: merges into the existing child at that score. -/
def fwdAdd (fwd : List (ZScore × List (ZMember × ZFwdVal))) (s : ZScore)
    (m : ZMember) (v : ZFwdVal) : List (ZScore × List (ZMember × ZFwdVal)) :=
  let inner := (assocGet fwd s).getD []
  assocSet fwd s (assocSet inner m v)

/-- The entries accumulated by one sorted-set ADD: the response counter, the
number of new elements (for the cardinality update) and the forward and reverse
children to be written. -/
structure ZAddAcc where
  return_value : Int
  new_elements_added : Int
  fwd : List (ZScore × List (ZMember × ZFwdVal))
  rev : List (ZMember × ZScore)
deriving DecidableEq, Repr

/-- One iteration of the subkey loop of the sorted-set branch of
`RedisWriteOperation::ApplySet`: looks the member up in the stored reverse map,
decides `should_add_entry` / `should_remove_existing_entry` from the NX/XX/none
update option, writes a forward tombstone for a changed score, and adds the
forward and reverse children for an added entry (with the stored score folded in
under the `incr` option). -/
def zaddStep (opts : ZAddOptions) (st : ZState) (acc : ZAddAcc)
    (sk : ZScore × ZMember) : ZAddAcc :=
  let new_score := sk.1
  let m := sk.2
  let subdoc_reverse := zlookup st m
  let found := subdoc_reverse.isSome
  let nxxx := opts.update_options
  let should_add_entry : Bool :=
    if found then !(nxxx = ZUpdateOptions.NX : Bool) else !(nxxx = ZUpdateOptions.XX : Bool)
  let score_changed : Bool :=
    found && !(nxxx = ZUpdateOptions.NX : Bool) && !(subdoc_reverse.getD 0 = new_score : Bool)
  let rv_inc : Int :=
    (if !found && !(nxxx = ZUpdateOptions.XX : Bool) then 1 else 0) +
    (if score_changed && opts.ch then 1 else 0)
  let nea_inc : Int := if !found && !(nxxx = ZUpdateOptions.XX : Bool) then 1 else 0
  let fwd1 :=
    if score_changed then
      assocSet acc.fwd (subdoc_reverse.getD 0) [(m, ZFwdVal.tombstone)]
    else acc.fwd
  let score_to_add := if opts.incr then new_score + subdoc_reverse.getD 0 else new_score
  let fwd2 := if should_add_entry then fwdAdd fwd1 score_to_add m ZFwdVal.null else fwd1
  let rev2 := if should_add_entry then assocSet acc.rev m score_to_add else acc.rev
  { return_value := acc.return_value + rv_inc,
    new_elements_added := acc.new_elements_added + nea_inc,
    fwd := fwd2,
    rev := rev2 }

/-- The top-level `kv_entries` written by one sorted-set ADD: whether the write
is an `InsertSubDocument` (stored type was `NONE`) or an `ExtendSubDocument`, the
new counter child (present only if new elements were added), and the forward and
reverse children. -/
structure ZWrite where
  insertMode : Bool
  card : Option Int
  fwd : List (ZScore × List (ZMember × ZFwdVal))
  rev : List (ZMember × ZScore)
deriving DecidableEq, Repr

/-- Result of one sorted-set ADD: `WRONG_TYPE`, or the integer response together
with the write appended to the batch (`none` when `kv_entries` stayed empty). -/
inductive ZAddResult
  | wrongType
  | ok (return_value : Int) (write : Option ZWrite)
deriving DecidableEq, Repr

/-- Embedding of the `REDIS_TYPE_SORTEDSET` branch of
`RedisWriteOperation::ApplySet`: rejects a stored type that is neither
`SORTEDSET` nor `NONE`, folds `zaddStep` over the subkeys, writes the counter as
the stored cardinality plus the number of new elements when any were added, and
appends the accumulated entries (insert when the key was absent, extend
otherwise) when non-empty. -/
def applySortedSetAdd (data_type : RedisDataType) (opts : ZAddOptions)
    (subkeys : List (ZScore × ZMember)) (st : ZState) : ZAddResult :=
  if data_type ≠ RedisDataType.SORTEDSET ∧ data_type ≠ RedisDataType.NONE then
    ZAddResult.wrongType
  else
    let acc := subkeys.foldl (zaddStep opts st) ⟨0, 0, [], []⟩
    let card_entry : Option Int :=
      if acc.new_elements_added > 0 then some (getCardinality st + acc.new_elements_added)
      else Option.none
    let write : Option ZWrite :=
      if card_entry.isSome ∨ acc.fwd ≠ [] ∨ acc.rev ≠ [] then
        some ⟨data_type = RedisDataType.NONE, card_entry, acc.fwd, acc.rev⟩
      else Option.none
    ZAddResult.ok acc.return_value write

/-- Modelled from the spec: applying the batched sorted-set write
(`InsertSubDocument`/`ExtendSubDocument` live in the write batch outside this
component) onto the stored state — extending merges children without removing
untouched siblings, so a written counter child replaces the stored counter and
each written reverse-map child overwrites that member's score. -/
def applyZWrite (st : ZState) (w : Option ZWrite) : ZState :=
  match w with
  | Option.none => st
  | some zw =>
      { card :=
          match zw.card with
          | some c => some c
          | Option.none => st.card,
        reverse := zw.rev.foldl (fun r p => assocSet r p.1 p.2) st.reverse }

/-- The stored type seen by `GetValueType` for the states tracked here: `NONE`
for a never-written key, `SORTEDSET` once any sorted-set child exists. -/
def zstateType (st : ZState) : RedisDataType :=
  if st.card.isNone ∧ st.reverse.isEmpty then RedisDataType.NONE
  else RedisDataType.SORTEDSET

/-- One ADD executed against the store and its write applied. -/
def zaddApplyOnce (opts : ZAddOptions) (subkeys : List (ZScore × ZMember))
    (st : ZState) : ZState :=
  match applySortedSetAdd (zstateType st) opts subkeys st with
  | ZAddResult.wrongType => st
  | ZAddResult.ok _ w => applyZWrite st w

/-- The write produced by one ADD executed against the store. -/
def zaddWriteOf (opts : ZAddOptions) (subkeys : List (ZScore × ZMember))
    (st : ZState) : Option ZWrite :=
  match applySortedSetAdd (zstateType st) opts subkeys st with
  | ZAddResult.wrongType => Option.none
  | ZAddResult.ok _ w => w

/-- The empty store state for a sorted-set key. -/
def emptyZState : ZState := ⟨Option.none, []⟩

/-- A sequence of ADDs executed from the empty state. -/
def zaddSequence (opts : ZAddOptions) (batches : List (List (ZScore × ZMember))) : ZState :=
  batches.foldl (fun s b => zaddApplyOnce opts b s) emptyZState

/-- The members of an ADD batch. -/
def zmembers (b : List (ZScore × ZMember)) : List ZMember := b.map (fun p => p.2)

/-- Whether a reverse-map entry list mentions a member. -/
def revHas (rev : List (ZMember × ZScore)) (m : ZMember) : Bool :=
  rev.any (fun p => decide (p.1 = m))

/-- Whether the forward-map entries mention a member (live or tombstoned). -/
def fwdHas (fwd : List (ZScore × List (ZMember × ZFwdVal))) (m : ZMember) : Bool :=
  fwd.any (fun p => p.2.any (fun q => decide (q.1 = m)))

/-- Whether a sorted-set write mentions a member at all. -/
def zwriteMentions (w : Option ZWrite) (m : ZMember) : Bool :=
  match w with
  | Option.none => false
  | some zw => revHas zw.rev m || fwdHas zw.fwd m

/-! ## QL data model (schema, requests, doc paths)

Expression evaluation is an external capability (`EvalExpr` / `EvalCondition`);
it is passed into the embedded operations as an explicit function argument. -/

/-- A QL value, restricted to the shapes the embedded operations inspect. -/
inductive QLValue
  | nullV
  | boolV (b : Bool)
  | intV (i : Int)
  | stringV (s : String)
deriving DecidableEq, Repr

/-- The `main()` type of a column, as far as the write path dispatches on it. -/
inductive ColMainType
  | mapT
  | listT
  | scalarT
deriving DecidableEq, Repr

/-- A column of the table schema. -/
structure SchemaColumn where
  id : Nat
  name : String
  is_static : Bool
  ctype : ColMainType
deriving DecidableEq, Repr

/-- The table schema: key columns (hash then range) first, then regular columns. -/
structure Schema where
  num_hash_key_columns : Nat
  num_range_key_columns : Nat
  columns : List SchemaColumn
deriving DecidableEq, Repr

/-- `Schema::num_key_columns`. -/
def Schema.num_key_columns (s : Schema) : Nat :=
  s.num_hash_key_columns + s.num_range_key_columns

/-- `Schema::num_columns`. -/
def Schema.num_columns (s : Schema) : Nat := s.columns.length

/-- `Schema::column_by_id`. -/
def Schema.column_by_id (s : Schema) (id : Nat) : Option SchemaColumn :=
  s.columns.find? (fun c => decide (c.id = id))

/-- `Schema::is_key_column` for a column id. -/
def Schema.is_key_column (s : Schema) (id : Nat) : Bool :=
  (s.columns.take s.num_key_columns).any (fun c => decide (c.id = id))

/-- `Schema::column_id(i)`: the id of the i-th column. -/
def Schema.column_id (s : Schema) (i : Nat) : Nat :=
  ((s.columns.get? i).map (fun c => c.id)).getD 0

/-- A row as a map from column id to value (`QLTableRow`). -/
abbrev QLTableRow := List (Nat × QLValue)

/-- `QLTableRow::GetValue` as used to populate result rows; a column that was
never allocated reads as null. -/
def getValueD (row : QLTableRow) (id : Nat) : QLValue :=
  ((row.find? (fun p => decide (p.1 = id))).map (fun p => p.2)).getD QLValue.nullV

/-- The write instruction attached to a column expression
(`GetTSWriteInstruction`). -/
inductive TSWriteInstr
  | scalarInsert
  | mapExtend
  | setExtend
  | mapRemove
  | setRemove
  | listAppend
  | listPrepend
  | listRemove
deriving DecidableEq, Repr

/-- A `column_values` entry of a `QLWriteRequestPB`.  The expression itself is
opaque (evaluated by the external expression capability); the entry carries its
id, the write instruction derived from it, and any subscript arguments. -/
structure ColumnValue where
  has_column_id : Bool
  column_id : Nat
  expr : Nat
  write_instr : TSWriteInstr
  subscript_args : List QLValue
deriving DecidableEq, Repr

/-- The referenced-columns message of a request (`QLReferencedColumnsPB`). -/
structure ColumnRefs where
  has_refs : Bool
  ids : List Nat
  static_ids : List Nat
deriving DecidableEq, Repr

/-- A QL write statement type. -/
inductive QLStmtType
  | insert
  | update
  | delete
deriving DecidableEq, Repr

/-- A `QLWriteRequestPB`, restricted to the fields the embedded operations read. -/
structure QLWriteRequest where
  type : QLStmtType
  has_if_expr : Bool
  column_refs : ColumnRefs
  has_hash_code : Bool
  hash_code : Nat
  hashed_column_values : List QLValue
  range_column_values : List QLValue
  column_values : List ColumnValue
  has_user_timestamp_usec : Bool
  user_timestamp_usec : Int
  has_ttl : Bool
  ttl : Nat
deriving DecidableEq, Repr

/-- A document key: hash code plus hashed components and range components, or
range components only (syscatalog tables). -/
inductive LDocKey
  | withHash (hash_code : Nat) (hashed : List QLValue) (range : List QLValue)
  | rangeOnly (range : List QLValue)
deriving DecidableEq, Repr

/-- A subkey appended to a document key in a `DocPath`. -/
inductive SubKeyElem
  | colId (id : Nat)
  | sysLiveness
  | prim (v : QLValue)
deriving DecidableEq, Repr

/-- A `DocPath`: an encoded document key plus trailing subkeys. -/
structure LDocPath where
  doc_key : LDocKey
  subkeys : List SubKeyElem
deriving DecidableEq, Repr

/-- The isolation levels a write operation can declare. -/
inductive IsolationLevel
  | SNAPSHOT_ISOLATION
  | SERIALIZABLE_ISOLATION
deriving DecidableEq, Repr

/-! ## `RequireRead` and key initialization (`QLWriteOperation::Init`) -/

/-- Embedding of `RequireReadForExpressions`: an IF clause, or a non-empty set
of referenced regular or static columns, forces a read. -/
def requireReadForExpressions (req : QLWriteRequest) : Bool :=
  req.has_if_expr ||
    (req.column_refs.has_refs &&
      (!req.column_refs.ids.isEmpty || !req.column_refs.static_ids.isEmpty))

/-- Embedding of `IsRangeOperation`: range key portion missing and no targeted
columns, on a schema with range key columns. -/
def isRangeOperation (req : QLWriteRequest) (schema : Schema) : Bool :=
  decide (schema.num_range_key_columns > 0) &&
    req.range_column_values.isEmpty && req.column_values.isEmpty

/-- Embedding of `RequireRead`: expression read, user-supplied timestamp, or
range operation. -/
def requireRead (req : QLWriteRequest) (schema : Schema) : Bool :=
  requireReadForExpressions req || req.has_user_timestamp_usec ||
    isRangeOperation req schema

/-- The mutable per-operation state of a `QLWriteOperation` relevant to locking:
the computed `require_read_` flag and the lazily initialized hashed and
primary-key doc paths. -/
structure QLWriteOpState where
  require_read : Bool
  hashed_doc_path : Option LDocPath
  pk_doc_path : Option LDocPath
deriving DecidableEq, Repr

/-- Embedding of `QLWriteOperation::InitializeKeys`: sets the hashed path (hash
code plus hashed components) when requested and not already set, and the
primary-key path (full key, or range components only when there is no hash code
or no hashed components) when requested and not already set. -/
def initKeys (req : QLWriteRequest) (st : QLWriteOpState)
    (hashed_key primary_key : Bool) : QLWriteOpState :=
  let hashed_components := req.hashed_column_values
  let range_components := req.range_column_values
  let hkey : LDocPath := LDocPath.mk (LDocKey.withHash req.hash_code hashed_components []) []
  let pkey : LDocPath :=
    LDocPath.mk
      (if req.has_hash_code ∧ ¬hashed_components.isEmpty then
        LDocKey.withHash req.hash_code hashed_components range_components
      else LDocKey.rangeOnly range_components) []
  let st1 :=
    if hashed_key ∧ st.hashed_doc_path.isNone then
      { st with hashed_doc_path := some hkey }
    else st
  if primary_key ∧ st1.pk_doc_path.isNone then
    { st1 with pk_doc_path := some pkey }
  else st1

/-- The static/non-static classification loop of `QLWriteOperation::Init`:
whether any written column is static and whether any is non-static, failing if a
written column id is not in the schema; stops early once both are seen. -/
def findStaticness (schema : Schema) (ws wns : Bool) :
    List ColumnValue → Except String (Bool × Bool)
  | [] => Except.ok (ws, wns)
  | cv :: rest =>
      match schema.column_by_id cv.column_id with
      | Option.none => Except.error "column not found"
      | some col =>
          let ws' := ws || col.is_static
          let wns' := wns || !col.is_static
          if ws' && wns' then Except.ok (ws', wns')
          else findStaticness schema ws' wns' rest

/-- Embedding of `QLWriteOperation::Init`: computes `require_read_`, classifies
the written columns, and initializes the hashed key when static columns are
written or this is a range operation, and the primary key when non-static
columns are written, range column values are present, or the schema has no
range key columns. -/
def qlWriteInit (schema : Schema) (req : QLWriteRequest) :
    Except String QLWriteOpState :=
  let require_read := requireRead req schema
  match findStaticness schema false false req.column_values with
  | Except.error e => Except.error e
  | Except.ok (write_static, write_non_static) =>
      let is_range_op := isRangeOperation req schema
      Except.ok (initKeys req ⟨require_read, Option.none, Option.none⟩
        (write_static || is_range_op)
        (write_non_static || !req.range_column_values.isEmpty ||
          decide (schema.num_range_key_columns = 0)))

/-- Embedding of `QLWriteOperation::GetDocPathsToLock`: the initialized hashed
and primary-key paths, in that order, with snapshot isolation when the write
requires a read and serializable isolation otherwise. -/
def getDocPathsToLock (st : QLWriteOpState) : List LDocPath × IsolationLevel :=
  (st.hashed_doc_path.toList ++ st.pk_doc_path.toList,
   if st.require_read then IsolationLevel.SNAPSHOT_ISOLATION
   else IsolationLevel.SERIALIZABLE_ISOLATION)

/-! ## Projections and the conditional path of `QLWriteOperation::Apply` -/

/-- Insertion into a sorted duplicate-free list of column ids (the `std::set`
used by `CreateProjections`). -/
def insertSortedNoDup (x : Nat) : List Nat → List Nat
  | [] => [x]
  | y :: t =>
      if x < y then x :: y :: t
      else if x = y then y :: t
      else y :: insertSortedNoDup x t

/-- The sorted duplicate-free id set built from a list of ids. -/
def sortedIdSet (l : List Nat) : List Nat :=
  l.foldl (fun acc x => insertSortedNoDup x acc) []

/-- `Schema::CreateProjectionByIdsIgnoreMissing`: the schema columns with the
given ids, skipping ids not present in the schema. -/
def projectionByIds (schema : Schema) (ids : List Nat) : List SchemaColumn :=
  ids.filterMap (fun id => schema.column_by_id id)

/-- Embedding of `CreateProjections`: referenced regular column ids that are not
key columns form the non-static projection, referenced static ids the static
projection, each sorted and deduplicated. -/
def createProjections (schema : Schema) (refs : ColumnRefs) :
    List SchemaColumn × List SchemaColumn :=
  let non_static_ids := sortedIdSet (refs.ids.filter (fun id => !(schema.is_key_column id)))
  let static_ids := sortedIdSet refs.static_ids
  (projectionByIds schema static_ids, projectionByIds schema non_static_ids)

/-- The rowblock returned to the caller of a conditional write: column names and
the single row of values. -/
structure QLRowBlock where
  column_names : List String
  row : List QLValue
deriving DecidableEq, Repr

/-- `PopulateRow`: values of the projection's columns drawn from the read row. -/
def populateRow (row : QLTableRow) (proj : List SchemaColumn) : List QLValue :=
  proj.map (fun c => getValueD row c.id)

/-- The state update performed by `QLWriteOperation::ReadColumns`: keys are
initialized for whichever of the static and non-static projections is
non-empty.  The row produced by the scan is supplied by the store and is a
parameter of the callers. -/
def readColumnsStateUpdate (schema : Schema) (req : QLWriteRequest)
    (st : QLWriteOpState) : QLWriteOpState :=
  let projections := createProjections schema req.column_refs
  initKeys req st (!projections.1.isEmpty) (!projections.2.isEmpty)

/-- Embedding of `QLWriteOperation::IsConditionSatisfied` given the row read by
`ReadColumns` and the external condition evaluator: evaluates the IF condition
and builds the rowblock whose first column `[applied]` holds the outcome,
followed — when the condition failed and the row exists — by the pre-image
values of the static and then the non-static projection columns. -/
def isConditionSatisfied (schema : Schema) (refs : ColumnRefs)
    (evalCond : QLTableRow → Bool) (table_row : QLTableRow) : Bool × QLRowBlock :=
  let projections := createProjections schema refs
  let should_apply := evalCond table_row
  let preimage := !should_apply && !table_row.isEmpty
  let cols :=
    "[applied]" ::
      (if preimage then (projections.1 ++ projections.2).map (fun c => c.name) else [])
  let vals :=
    QLValue.boolV should_apply ::
      (if preimage then
        populateRow table_row projections.1 ++ populateRow table_row projections.2
      else [])
  (should_apply, ⟨cols, vals⟩)

/-! ## The column-value write loop of `QLWriteOperation::Apply` -/

/-- A document mutation appended to the write batch by a QL write. -/
inductive QLMutation
  | setPrimitive (path : LDocPath) (v : QLValue) (ttl : Option Nat) (uts : Option Int)
  | insertSubDocument (path : LDocPath) (v : QLValue) (ttl : Option Nat) (uts : Option Int)
  | extendSubDocument (path : LDocPath) (v : QLValue) (ttl : Option Nat)
  | extendList (path : LDocPath) (v : QLValue) (append : Bool) (ttl : Option Nat)
  | replaceInList (path : LDocPath) (index : Int) (v : QLValue)
  | deleteSubDoc (path : LDocPath) (uts : Option Int)
deriving DecidableEq, Repr

/-- Embedding of `CheckUserTimestampForCollections`: a valid user-supplied
timestamp is rejected with an invalid-argument error. -/
def checkUserTimestampForCollections (uts : Option Int) : Except String Unit :=
  match uts with
  | some _ =>
      Except.error
        "User supplied timestamp is only allowed for replacing the whole collection"
  | Option.none => Except.ok ()

/-- The outcome of processing one `column_values` entry: mutations to append, or
the recoverable usage-error stop of the list index-out-of-bounds path. -/
inductive ColResult
  | muts (l : List QLMutation)
  | usageStop (msg : String)
deriving DecidableEq, Repr

/-- The integer carried by a QL value, as read for a list subscript. -/
def qlInt : QLValue → Int
  | QLValue.intV i => i
  | _ => 0

/-- Embedding of the body of the `column_values` loop of
`QLWriteOperation::Apply` for INSERT/UPDATE: resolves the column, builds the
column sub-path on the hashed (static column) or primary-key path, evaluates
the expression through the external evaluator, and dispatches on the write
instruction — whole-value scalar insert; collection extend/remove and list
append/prepend/remove, which reject a user-supplied timestamp; and sub-column
writes (`map[key] = v`, `list[index] = v`), which also reject a user timestamp
and surface a list index-out-of-bounds as a recoverable usage error, decided by
the external write batch via `listOOB`. -/
def applyColumnValue (schema : Schema) (st : QLWriteOpState)
    (evalE : Nat → QLTableRow → QLValue) (table_row : QLTableRow)
    (ttl : Option Nat) (user_timestamp : Option Int)
    (listOOB : LDocPath → Int → Bool) (cv : ColumnValue) :
    Except String ColResult :=
  if !cv.has_column_id then Except.error "column id missing"
  else
    match schema.column_by_id cv.column_id with
    | Option.none => Except.error "column not found"
    | some column =>
        match (if column.is_static then st.hashed_doc_path else st.pk_doc_path) with
        | Option.none => Except.error "doc path not initialized"
        | some base =>
            let sub_path : LDocPath := ⟨base.doc_key, [SubKeyElem.colId cv.column_id]⟩
            let sub_doc := evalE cv.expr table_row
            if cv.subscript_args.isEmpty then
              match cv.write_instr with
              | TSWriteInstr.scalarInsert =>
                  Except.ok (ColResult.muts
                    [QLMutation.insertSubDocument sub_path sub_doc ttl user_timestamp])
              | TSWriteInstr.mapExtend | TSWriteInstr.setExtend
              | TSWriteInstr.mapRemove | TSWriteInstr.setRemove =>
                  match checkUserTimestampForCollections user_timestamp with
                  | Except.error e => Except.error e
                  | Except.ok _ =>
                      Except.ok (ColResult.muts
                        [QLMutation.extendSubDocument sub_path sub_doc ttl])
              | TSWriteInstr.listAppend =>
                  match checkUserTimestampForCollections user_timestamp with
                  | Except.error e => Except.error e
                  | Except.ok _ =>
                      Except.ok (ColResult.muts
                        [QLMutation.extendList sub_path sub_doc true ttl])
              | TSWriteInstr.listPrepend =>
                  match checkUserTimestampForCollections user_timestamp with
                  | Except.error e => Except.error e
                  | Except.ok _ =>
                      Except.ok (ColResult.muts
                        [QLMutation.extendList sub_path sub_doc false ttl])
              | TSWriteInstr.listRemove =>
                  match checkUserTimestampForCollections user_timestamp with
                  | Except.error e => Except.error e
                  | Except.ok _ =>
                      Except.ok (ColResult.muts
                        [QLMutation.insertSubDocument sub_path sub_doc ttl user_timestamp])
            else
              match checkUserTimestampForCollections user_timestamp with
              | Except.error e => Except.error e
              | Except.ok _ =>
                  match column.ctype with
                  | ColMainType.mapT =>
                      let pv := cv.subscript_args.headD QLValue.nullV
                      let sub_path2 : LDocPath :=
                        ⟨sub_path.doc_key, sub_path.subkeys ++ [SubKeyElem.prim pv]⟩
                      Except.ok (ColResult.muts
                        [QLMutation.insertSubDocument sub_path2 sub_doc ttl user_timestamp])
                  | ColMainType.listT =>
                      let index : Int := qlInt (cv.subscript_args.headD QLValue.nullV) + 1
                      if listOOB sub_path index then
                        Except.ok (ColResult.usageStop "list index out of bounds")
                      else
                        Except.ok (ColResult.muts
                          [QLMutation.replaceInList sub_path index sub_doc])
                  | ColMainType.scalarT => Except.ok (ColResult.muts [])

/-- The outcome of the whole `column_values` loop: all entries processed, or the
loop cut short by the recoverable usage error (mutations appended before the
failing entry stay in the batch). -/
inductive LoopResult
  | applied (muts : List QLMutation)
  | usage (muts : List QLMutation) (msg : String)
deriving DecidableEq, Repr

/-- The `column_values` loop of `QLWriteOperation::Apply`. -/
def applyColumnValues (schema : Schema) (st : QLWriteOpState)
    (evalE : Nat → QLTableRow → QLValue) (table_row : QLTableRow)
    (ttl : Option Nat) (user_timestamp : Option Int)
    (listOOB : LDocPath → Int → Bool) :
    List ColumnValue → Except String LoopResult
  | [] => Except.ok (LoopResult.applied [])
  | cv :: rest =>
      match applyColumnValue schema st evalE table_row ttl user_timestamp listOOB cv with
      | Except.error e => Except.error e
      | Except.ok (ColResult.usageStop msg) => Except.ok (LoopResult.usage [] msg)
      | Except.ok (ColResult.muts l) =>
          match applyColumnValues schema st evalE table_row ttl user_timestamp listOOB rest with
          | Except.error e => Except.error e
          | Except.ok (LoopResult.applied ls) => Except.ok (LoopResult.applied (l ++ ls))
          | Except.ok (LoopResult.usage ls msg) => Except.ok (LoopResult.usage (l ++ ls) msg)

/-! ## `QLWriteOperation::DeleteRow` and the DELETE branch -/

/-- Embedding of `QLWriteOperation::DeleteRow`: with a user-supplied timestamp,
one `DeleteSubDoc` tombstone per non-key column (indices `num_key_columns` to
`num_columns`) plus one for the liveness marker, all at that timestamp;
otherwise a single whole-row `DeleteSubDoc` on the row path. -/
def deleteRow (req : QLWriteRequest) (schema : Schema) (row_path : LDocPath) :
    List QLMutation :=
  if req.has_user_timestamp_usec then
    ((List.range schema.num_columns).drop schema.num_key_columns).map
      (fun i =>
        QLMutation.deleteSubDoc ⟨row_path.doc_key, [SubKeyElem.colId (schema.column_id i)]⟩
          (some req.user_timestamp_usec)) ++
    [QLMutation.deleteSubDoc ⟨row_path.doc_key, [SubKeyElem.sysLiveness]⟩
      (some req.user_timestamp_usec)]
  else [QLMutation.deleteSubDoc row_path Option.none]

/-- The delete-named-columns branch of the DELETE case: one `DeleteSubDoc` per
referenced column at the user timestamp (when supplied), on the hashed path for
static columns and the primary-key path otherwise. -/
def deleteColumns (schema : Schema) (st : QLWriteOpState)
    (user_timestamp : Option Int) : List ColumnValue → Except String (List QLMutation)
  | [] => Except.ok []
  | cv :: rest =>
      if !cv.has_column_id then Except.error "column id missing"
      else
        match schema.column_by_id cv.column_id with
        | Option.none => Except.error "column not found"
        | some column =>
            match (if column.is_static then st.hashed_doc_path else st.pk_doc_path) with
            | Option.none => Except.error "doc path not initialized"
            | some base =>
                match deleteColumns schema st user_timestamp rest with
                | Except.error e => Except.error e
                | Except.ok ls =>
                    Except.ok
                      (QLMutation.deleteSubDoc
                        ⟨base.doc_key, [SubKeyElem.colId cv.column_id]⟩ user_timestamp :: ls)

/-- The statuses a QL write response can end with in the embedded paths. -/
inductive QLStatus
  | OK
  | USAGE_ERROR
deriving DecidableEq, Repr

/-- The observable outcome of `QLWriteOperation::Apply`: the conditional-write
rowblock (if any), the response status, and the mutations appended to the write
batch. -/
structure QLApplyResult where
  rowblock : Option QLRowBlock
  status : QLStatus
  mutations : List QLMutation
deriving DecidableEq, Repr

/-- The range-delete scan of the DELETE branch: the rows produced by the
iterator (each with its row key) are an input from the store; each row matching
the scan-spec predicate is deleted via `DeleteRow`.  This scan is explicitly
not isolated from concurrent writers. -/
def rangeDelete (req : QLWriteRequest) (schema : Schema)
    (range_rows : List (QLTableRow × LDocKey)) (matchWhere : QLTableRow → Bool) :
    List QLMutation :=
  (range_rows.filter (fun r => matchWhere r.1)).flatMap
    (fun r => deleteRow req schema ⟨r.2, []⟩)

/-- Embedding of `QLWriteOperation::Apply`.  The row read by `ReadColumns`, the
condition and expression evaluators, the list-bound check of the write batch,
and the rows seen by a range-delete scan are external inputs.  When an IF
clause is present the condition is evaluated and the `[applied]` rowblock
built; when the operation applies, INSERT/UPDATE write the liveness marker (for
INSERT) and dispatch each column value, and DELETE deletes named columns, a
predicate-matched range, or the whole addressed row. -/
def qlApply (schema : Schema) (req : QLWriteRequest) (st0 : QLWriteOpState)
    (evalCond : QLTableRow → Bool) (evalE : Nat → QLTableRow → QLValue)
    (table_row_read : QLTableRow) (listOOB : LDocPath → Int → Bool)
    (range_rows : List (QLTableRow × LDocKey)) (matchWhere : QLTableRow → Bool) :
    Except String QLApplyResult :=
  let ttl : Option Nat := if req.has_ttl then some req.ttl else Option.none
  let user_timestamp : Option Int :=
    if req.has_user_timestamp_usec then some req.user_timestamp_usec else Option.none
  let condPart : Bool × Option QLRowBlock × QLTableRow × QLWriteOpState :=
    if req.has_if_expr then
      let st1 := readColumnsStateUpdate schema req st0
      let sc := isConditionSatisfied schema req.column_refs evalCond table_row_read
      (sc.1, some sc.2, table_row_read, st1)
    else if requireReadForExpressions req then
      (true, Option.none, table_row_read, readColumnsStateUpdate schema req st0)
    else (true, Option.none, [], st0)
  let should_apply := condPart.1
  let rowblock := condPart.2.1
  let table_row := condPart.2.2.1
  let st := condPart.2.2.2
  if !should_apply then
    Except.ok ⟨rowblock, QLStatus.OK, []⟩
  else
    match req.type with
    | QLStmtType.insert | QLStmtType.update =>
        let liveness : List QLMutation :=
          if req.type = QLStmtType.insert ∧ st.pk_doc_path.isSome then
            match st.pk_doc_path with
            | some pk =>
                [QLMutation.setPrimitive ⟨pk.doc_key, [SubKeyElem.sysLiveness]⟩
                  QLValue.nullV ttl user_timestamp]
            | Option.none => []
          else []
        if req.column_values.isEmpty then
          Except.ok ⟨rowblock, QLStatus.OK, liveness⟩
        else
          match applyColumnValues schema st evalE table_row ttl user_timestamp listOOB
              req.column_values with
          | Except.error e => Except.error e
          | Except.ok (LoopResult.applied muts) =>
              Except.ok ⟨rowblock, QLStatus.OK, liveness ++ muts⟩
          | Except.ok (LoopResult.usage muts _) =>
              Except.ok ⟨rowblock, QLStatus.USAGE_ERROR, liveness ++ muts⟩
    | QLStmtType.delete =>
        if !req.column_values.isEmpty then
          match deleteColumns schema st user_timestamp req.column_values with
          | Except.error e => Except.error e
          | Except.ok muts => Except.ok ⟨rowblock, QLStatus.OK, muts⟩
        else if isRangeOperation req schema then
          Except.ok ⟨rowblock, QLStatus.OK, rangeDelete req schema range_rows matchWhere⟩
        else
          match st.pk_doc_path with
          | Option.none => Except.error "doc path not initialized"
          | some pk => Except.ok ⟨rowblock, QLStatus.OK, deleteRow req schema pk⟩

/-! ## The structured-read engine (`QLReadOperation::Execute`)

The storage iterators are embedded as the streams of rows they produce, each
stream carrying the restart-read-timestamp hint (`RestartReadHt`) the iterator
reports after its scan.  The scan-spec residual predicate (`QLScanSpec::Match`)
and the per-column output projection are external and passed as parameters. -/

/-- A `QLReadRequestPB`, restricted to the fields the embedded path reads. -/
structure QLReadRequest where
  has_limit : Bool
  limit : Nat
  distinct : Bool
  is_aggregate : Bool
  column_refs : ColumnRefs
deriving DecidableEq, Repr

/-- One entry of the merged static/non-static storage stream, as classified by
`IsNextStaticColumn`. -/
structure IterEntry where
  is_static : Bool
  row : QLTableRow
deriving DecidableEq, Repr

/-- The main scan iterator: the entries it will produce, in storage order, and
its restart-read-timestamp hint. -/
structure MainIter where
  entries : List IterEntry
  restart_ht : Nat
deriving DecidableEq, Repr

/-- The extra static-row lookup iterator used when resuming from a paging state
that captured only the non-static cursor: the static row it finds (if any) and
its own restart-read-timestamp hint. -/
structure StaticLookupIter where
  row : Option QLTableRow
  restart_ht : Nat
deriving DecidableEq, Repr

/-- `std::numeric_limits<std::size_t>::max()`, the row-count limit used when the
request carries none. -/
def sizeTMax : Nat := 18446744073709551615

/-- Modelled from the spec: `QLTableRow::MatchColumn` (in the common query
layer, outside this component) as described by the comment on `JoinStaticRow` —
a hash-key column matches when the two values are non-NULL and equal, or when
either of them is NULL or unset. -/
def matchColumn (id : Nat) (a b : QLTableRow) : Bool :=
  match a.find? (fun p => decide (p.1 = id)), b.find? (fun p => decide (p.1 = id)) with
  | some x, some y =>
      if x.2 = QLValue.nullV ∨ y.2 = QLValue.nullV then true
      else decide (x.2 = y.2)
  | _, _ => true

/-- Modelled from the spec: `QLTableRow::CopyColumn` — copy the entry for the
column from the source row into the destination row, when present. -/
def copyColumn (id : Nat) (src dst : QLTableRow) : QLTableRow :=
  match src.find? (fun p => decide (p.1 = id)) with
  | some p => assocSet dst id p.2
  | Option.none => dst

/-- Modelled from the spec: `QLTableRow::AllocColumn` — allocate a default
(null) entry for the column if it has none. -/
def allocColumn (row : QLTableRow) (id : Nat) : QLTableRow :=
  if (row.find? (fun p => decide (p.1 = id))).isSome then row
  else row ++ [(id, QLValue.nullV)]

/-- The ids of the hash-key columns of a schema. -/
def hashKeyIds (schema : Schema) : List Nat :=
  (schema.columns.take schema.num_hash_key_columns).map (fun c => c.id)

/-- `AddProjection`: allocate every column of the projection in the row. -/
def addProjection (proj : List SchemaColumn) (row : QLTableRow) : QLTableRow :=
  proj.foldl (fun r c => allocColumn r c.id) row

/-- Embedding of `JoinStaticRow`: the join succeeds when the static row is
empty, or when every hash-key column of the non-static row matches the static
row, in which case the static projection columns are copied into the non-static
row. -/
def joinStaticRow (schema : Schema) (static_projection : List SchemaColumn)
    (static_row non_static_row : QLTableRow) : Bool × QLTableRow :=
  if static_row.isEmpty then (true, non_static_row)
  else if (hashKeyIds schema).all (fun id => matchColumn id non_static_row static_row) then
    (true, static_projection.foldl (fun r c => copyColumn c.id static_row r) non_static_row)
  else (false, non_static_row)

/-- Embedding of `JoinNonStaticRow`: the join succeeds when every hash-key
column of the static row matches the non-static row; on failure the static row
is rebuilt from the static projection (null-allocated) plus the hash-key
columns of the non-static row. -/
def joinNonStaticRow (schema : Schema) (static_projection : List SchemaColumn)
    (non_static_row static_row : QLTableRow) : Bool × QLTableRow :=
  if (hashKeyIds schema).all (fun id => matchColumn id static_row non_static_row) then
    (true, static_row)
  else
    let cleared := static_projection.foldl (fun r c => allocColumn r c.id) ([] : QLTableRow)
    (false, (hashKeyIds schema).foldl (fun r id => copyColumn id non_static_row r) cleared)

/-- A row of the result set: a populated output row (output-column projection is
the external expression evaluator and is not re-modelled), or the single row an
aggregate query emits at the end. -/
inductive RRow
  | reg (row : QLTableRow)
  | agg
deriving DecidableEq, Repr

/-- The loop state of the fetch loop of `QLReadOperation::Execute`. -/
structure ReadLoopState where
  static_row : QLTableRow
  static_dealt_with : Bool
  match_count : Nat
  rows : List RRow
deriving DecidableEq, Repr

/-- Embedding of `QLReadOperation::AddRowToResult`: under the row-count limit,
rows matching the residual predicate are counted and, for non-aggregate
queries, appended to the result set (aggregate queries fold them into the
accumulator instead). -/
def addRowToResult (matchFn : QLTableRow → Bool) (is_aggregate : Bool)
    (limit : Nat) (st : ReadLoopState) (row : QLTableRow) : ReadLoopState :=
  if st.rows.length < limit then
    if matchFn row then
      if is_aggregate then { st with match_count := st.match_count + 1 }
      else { st with match_count := st.match_count + 1, rows := st.rows ++ [RRow.reg row] }
    else st
  else st

/-- The fetch loop of `QLReadOperation::Execute` over the merged stream:
maintains the one-row static buffer and the `static_dealt_with` flag, joins
static and non-static rows by hash key, and stops once the result set reaches
the row-count limit; returns the final state and the entries left unread. -/
def execLoop (schema : Schema) (sp nsp : List SchemaColumn)
    (read_static_columns read_distinct_columns is_aggregate : Bool)
    (matchFn : QLTableRow → Bool) (limit : Nat) :
    ReadLoopState → List IterEntry → ReadLoopState × List IterEntry
  | st, [] => (st, [])
  | st, e :: rest =>
      if limit ≤ st.rows.length then (st, e :: rest)
      else
        let st' :=
          if read_distinct_columns then
            if e.is_static then
              let st1 := { st with static_row := e.row }
              addRowToResult matchFn is_aggregate limit st1 st1.static_row
            else
              let j := joinNonStaticRow schema sp e.row st.static_row
              let st1 := { st with static_row := j.2 }
              if j.1 then st1
              else addRowToResult matchFn is_aggregate limit st1 st1.static_row
          else
            if e.is_static then
              let st1 := { st with static_row := e.row }
              if ((rest.head?.map (fun n => !n.is_static)).getD false) then
                { st1 with static_dealt_with := false }
              else
                addRowToResult matchFn is_aggregate limit st1
                  (addProjection nsp st1.static_row)
            else
              let joined : QLTableRow × ReadLoopState :=
                if read_static_columns || !st.static_dealt_with then
                  let j := joinStaticRow schema sp st.static_row e.row
                  let stAdd :=
                    if !j.1 && !st.static_dealt_with then
                      addRowToResult matchFn is_aggregate limit st
                        (addProjection nsp st.static_row)
                    else st
                  (j.2, stAdd)
                else (e.row, st)
              let st2 := { joined.2 with static_dealt_with := true }
              addRowToResult matchFn is_aggregate limit st2 joined.1
        execLoop schema sp nsp read_static_columns read_distinct_columns is_aggregate
          matchFn limit st' rest

/-- Modelled from the spec: `SetPagingStateIfNecessary` (on the rowwise
iterator, outside this component) — a paging-state continuation token derived
from the iterator's current position is attached only when the scan is not
exhausted, i.e. the iteration stopped because the limit was reached, not
because the source ran out. -/
def setPagingStateIfNecessary (remaining : List IterEntry) : Option Nat :=
  if remaining.isEmpty then Option.none else some remaining.length

/-- The observable outcome of `QLReadOperation::Execute`: the result rows, the
restart-read-timestamp hint returned to the caller, the paging-state token (if
any), and the entries of the main scan left unread. -/
structure QLReadResult where
  rows : List RRow
  restart_ht : Nat
  paging : Option Nat
  remaining : List IterEntry
deriving DecidableEq, Repr

/-- Embedding of `QLReadOperation::Execute`: a zero limit short-circuits to an
empty result; otherwise the static and non-static projections are built, the
extra static-row lookup (when resuming from a non-static-only paging state)
seeds the static buffer, the fetch loop runs, an aggregate query emits its
single row when any input matched, the restart hint is taken from the main
iterator, and the paging state is set when the result set reached the limit on
a non-aggregate query. -/
def qlReadExecute (schema : Schema) (req : QLReadRequest)
    (matchFn : QLTableRow → Bool) (static_lookup : Option StaticLookupIter)
    (main : MainIter) (restart_in : Nat) : QLReadResult :=
  if req.has_limit ∧ req.limit = 0 then
    { rows := [], restart_ht := restart_in, paging := Option.none,
      remaining := main.entries }
  else
    let limit := if req.has_limit then req.limit else sizeTMax
    let projections := createProjections schema req.column_refs
    let read_static_columns := !projections.1.isEmpty
    let static_row0 : QLTableRow :=
      match static_lookup with
      | some it => it.row.getD []
      | Option.none => []
    let st0 : ReadLoopState :=
      { static_row := static_row0, static_dealt_with := true, match_count := 0, rows := [] }
    let out := execLoop schema projections.1 projections.2 read_static_columns
      req.distinct req.is_aggregate matchFn limit st0 main.entries
    let rows1 :=
      if req.is_aggregate ∧ out.1.match_count > 0 then out.1.rows ++ [RRow.agg]
      else out.1.rows
    let paging :=
      if limit ≤ rows1.length ∧ req.is_aggregate = false then
        setPagingStateIfNecessary out.2
      else Option.none
    { rows := rows1, restart_ht := main.restart_ht, paging := paging, remaining := out.2 }

/-! ## Concrete fixtures used by witness theorems -/

/-- A hash-key column. -/
def exColH : SchemaColumn := ⟨1, "h1", false, ColMainType.scalarT⟩

/-- A range-key column. -/
def exColR : SchemaColumn := ⟨2, "r1", false, ColMainType.scalarT⟩

/-- A static column. -/
def exColS : SchemaColumn := ⟨3, "s1", true, ColMainType.scalarT⟩

/-- A regular scalar column. -/
def exColV : SchemaColumn := ⟨4, "v1", false, ColMainType.scalarT⟩

/-- A regular map column. -/
def exColM : SchemaColumn := ⟨5, "m1", false, ColMainType.mapT⟩

/-- A sample schema with one hash key, one range key, one static column and two
regular columns. -/
def exSchema : Schema := ⟨1, 1, [exColH, exColR, exColS, exColV, exColM]⟩

/-- Column references naming regular column 4. -/
def exRefs : ColumnRefs := ⟨true, [4], []⟩

/-- No column references. -/
def exNoRefs : ColumnRefs := ⟨false, [], []⟩

/-- A conditional UPDATE of column 4 (`UPDATE ... IF ...`). -/
def exReqCond : QLWriteRequest :=
  ⟨QLStmtType.update, true, exRefs, true, 10, [QLValue.intV 7], [QLValue.intV 8],
   [⟨true, 4, 0, TSWriteInstr.scalarInsert, []⟩], false, 0, false, 0⟩

/-- A conditional UPDATE with neither range values nor written columns: a range
operation carrying an IF clause. -/
def exReqRange : QLWriteRequest :=
  ⟨QLStmtType.update, true, exNoRefs, true, 10, [QLValue.intV 7], [], [], false, 0, false, 0⟩

/-- A whole-row DELETE carrying a user-supplied timestamp. -/
def exReqDelTs : QLWriteRequest :=
  ⟨QLStmtType.delete, false, exNoRefs, true, 10, [QLValue.intV 7], [QLValue.intV 8], [],
   true, 1000, false, 0⟩

/-- The row read back for the conditional-write fixtures. -/
def exRowRead : QLTableRow := [(1, QLValue.intV 7), (4, QLValue.intV 3)]

/-- A condition evaluator that reports the IF clause unsatisfied. -/
def exEvalFalse : QLTableRow → Bool := fun _ => false

/-- An expression evaluator producing a constant. -/
def exEvalE : Nat → QLTableRow → QLValue := fun _ _ => QLValue.intV 0

/-- A write batch whose list-bound check never fires. -/
def exListOOB : LDocPath → Int → Bool := fun _ _ => false

/-- The operation state `qlWriteInit exSchema exReqRange` produces. -/
def exStRange : QLWriteOpState :=
  ⟨true, some ⟨LDocKey.withHash 10 [QLValue.intV 7] [], []⟩, Option.none⟩

/-- An operation state with the primary-key path initialized. -/
def exStPk : QLWriteOpState :=
  ⟨false, Option.none, some ⟨LDocKey.withHash 10 [QLValue.intV 7] [QLValue.intV 8], []⟩⟩

/-- A residual predicate accepting every row. -/
def exMatchAll : QLTableRow → Bool := fun _ => true

/-- A non-aggregate read with limit 1. -/
def exReadReqLimit1 : QLReadRequest := ⟨true, 1, false, false, exNoRefs⟩

/-- A non-aggregate read with no limit. -/
def exReadReqNoLimit : QLReadRequest := ⟨false, 0, false, false, exNoRefs⟩

/-- A non-aggregate read with limit 0. -/
def exReadReqLimit0 : QLReadRequest := ⟨true, 0, false, false, exNoRefs⟩

/-- A main scan producing exactly one non-static row, with restart hint 0. -/
def exMainOneRow : MainIter := ⟨[⟨false, [(1, QLValue.intV 7)]⟩], 0⟩

/-! ## Helper lemmas -/

/-- A value accepted by the `std::stoll` range check lies in the signed 64-bit
range. -/
theorem stollRange_ok_bounds (w v : Int) (h : stollRange w = Except.ok v) :
    int64Min ≤ v ∧ v ≤ int64Max := by
  unfold stollRange at h
  split at h
  · exact absurd h (by simp)
  · rename_i hc
    push_neg at hc
    cases h
    exact hc

/-- A successfully parsed value lies in the signed 64-bit range. -/
theorem stoll_ok_bounds (s : String) (v : Int) (h : stoll s = Except.ok v) :
    int64Min ≤ v ∧ v ≤ int64Max := by
  simp only [stoll] at h
  split at h
  · exact absurd h (by simp)
  · exact stollRange_ok_bounds _ v h

/-- The overflow test of `ApplyIncr` detects exactly the sums that leave the
signed 64-bit range, for operands inside it. -/
theorem incr_overflow_test_iff (old incr : Int)
    (h1 : int64Min ≤ old) (h2 : old ≤ int64Max)
    (h3 : int64Min ≤ incr) (h4 : incr ≤ int64Max) :
    ((incr < 0 ∧ old < 0 ∧ incr < int64Min - old) ∨
     (incr > 0 ∧ old > 0 ∧ incr > int64Max - old)) ↔
    (old + incr < int64Min ∨ old + incr > int64Max) := by
  simp only [int64Min, int64Max] at h1 h2 h3 h4 ⊢
  omega

/-- `ApplyIncr` on a stored string reduces to the parse-and-check tail. -/
theorem applyIncr_str (kv : RedisKeyValue) (s : String) (incr : Int) :
    applyIncr kv (RedisStored.str s) incr =
      (match stoll s with
       | Except.error _ =>
           ({ emptyRedisResponse with
               code := some RedisStatusCode.OK
               error_message := some "Can not parse incr argument as a number" }, [])
       | Except.ok old_value =>
           if (incr < 0 ∧ old_value < 0 ∧ incr < int64Min - old_value) ∨
              (incr > 0 ∧ old_value > 0 ∧ incr > int64Max - old_value) then
             ({ emptyRedisResponse with
                 code := some RedisStatusCode.OK
                 error_message := some "Increment would overflow" }, [])
           else
             ({ emptyRedisResponse with
                 code := some RedisStatusCode.OK
                 int_response := some (old_value + incr) },
              [RedisMutation.setPrimitive kv.hash_code kv.key (toString (old_value + incr))])) := rfl

/-! ## Claim theorems: the KV-command engine -/

/-- C2: for an `INCR` on a key whose stored value is a string, a string that
`std::stoll` rejects yields a successful response carrying the domain error
message and no mutation; a parsed value whose sum with the increment leaves the
signed 64-bit range yields a successful response carrying the overflow message
and no mutation. -/
theorem incr_domain_and_overflow_errors (kv : RedisKeyValue) (s : String) (incr : Int)
    (hmin : int64Min ≤ incr) (hmax : incr ≤ int64Max) :
    (∀ e, stoll s = Except.error e →
      applyIncr kv (RedisStored.str s) incr =
        ({ emptyRedisResponse with
            code := some RedisStatusCode.OK
            error_message := some "Can not parse incr argument as a number" }, [])) ∧
    (∀ old, stoll s = Except.ok old →
      (old + incr < int64Min ∨ old + incr > int64Max) →
      applyIncr kv (RedisStored.str s) incr =
        ({ emptyRedisResponse with
            code := some RedisStatusCode.OK
            error_message := some "Increment would overflow" }, [])) := by
  constructor
  · intro e he
    rw [applyIncr_str, he]
  · intro old ho hov
    rw [applyIncr_str, ho]
    have hb := stoll_ok_bounds s old ho
    have hcond : ((incr < 0 ∧ old < 0 ∧ incr < int64Min - old) ∨
        (incr > 0 ∧ old > 0 ∧ incr > int64Max - old)) :=
      (incr_overflow_test_iff old incr hb.1 hb.2 hmin hmax).2 hov
    simp only [if_pos hcond]

/-- Witness for C2: `INCR 1` on stored `"abc"` reports the parse error with no
mutation, and on stored `"9223372036854775807"` reports the overflow with no
mutation. -/
theorem incr_domain_and_overflow_errors_witness :
    applyIncr ⟨0, "k"⟩ (RedisStored.str "abc") 1 =
      ({ emptyRedisResponse with
          code := some RedisStatusCode.OK
          error_message := some "Can not parse incr argument as a number" }, []) ∧
    applyIncr ⟨0, "k"⟩ (RedisStored.str "9223372036854775807") 1 =
      ({ emptyRedisResponse with
          code := some RedisStatusCode.OK
          error_message := some "Increment would overflow" }, []) :=
  ⟨(incr_domain_and_overflow_errors ⟨0, "k"⟩ "abc" 1 (by decide) (by decide)).1
      StollError.invalidArgument (by rfl),
   (incr_domain_and_overflow_errors ⟨0, "k"⟩ "9223372036854775807" 1 (by decide) (by decide)).2
      9223372036854775807 (by rfl) (by decide)⟩

/-- C9 (counterexample): `INCR 1` on a key with no stored value does not treat
the value as 0 and write back "1": it appends no mutation at all, sets no
integer response, and sets the response code to `NOT_FOUND`. -/
theorem incr_on_missing_key_cex :
    (applyIncr ⟨0, "k"⟩ RedisStored.absent 1).2 = [] ∧
    (applyIncr ⟨0, "k"⟩ RedisStored.absent 1).1.int_response = Option.none ∧
    (applyIncr ⟨0, "k"⟩ RedisStored.absent 1).1.code = some RedisStatusCode.NOT_FOUND :=
  ⟨rfl, rfl, rfl⟩

/-- C9 (amended): `INCR` on a key with no stored value (stored type `NONE`)
fails the string type check, whose `verify_success_if_missing` flag is left at
`false`; the response code is `NOT_FOUND` and no mutation is appended. -/
theorem incr_on_missing_key (kv : RedisKeyValue) (incr : Int) :
    applyIncr kv RedisStored.absent incr =
      ({ emptyRedisResponse with code := some RedisStatusCode.NOT_FOUND }, []) ∧
    applyIncr kv RedisStored.tombstone incr =
      ({ emptyRedisResponse with code := some RedisStatusCode.NOT_FOUND }, []) :=
  ⟨rfl, rfl⟩

/-- C10: `EXISTS` always answers with code `OK` (never `WRONG_TYPE`), and its
integer response is 1 exactly when the key holds a stored value of any type —
the observed type is `NONE` precisely for an absent or tombstoned key. -/
theorem exists_never_wrong_type (stored : RedisStored) :
    (executeExists stored).code = some RedisStatusCode.OK ∧
    (executeExists stored).code ≠ some RedisStatusCode.WRONG_TYPE ∧
    (executeExists stored).int_response =
      some (if (getRedisValue stored).type = RedisDataType.NONE then 0 else 1) ∧
    ((getRedisValue stored).type = RedisDataType.NONE ↔
      (stored = RedisStored.absent ∨ stored = RedisStored.tombstone)) := by
  refine ⟨rfl, by simp [executeExists], rfl, ?_⟩
  cases stored <;> simp [getRedisValue]

/-! ## Claim theorems: the structured-write engine -/

/-- The non-key tail of the index range of a schema enumerates exactly the ids
of the non-key columns. -/
theorem range_drop_map_colid (schema : Schema) :
    ((List.range schema.num_columns).drop schema.num_key_columns).map schema.column_id =
      (schema.columns.drop schema.num_key_columns).map (fun c => c.id) := by
  apply List.ext
  intro n
  rw [List.get?_map, List.get?_map, List.get?_drop, List.get?_drop]
  by_cases h : schema.num_key_columns + n < schema.num_columns
  · rw [List.get?_range h]
    have h2 : schema.num_key_columns + n < schema.columns.length := h
    simp [Schema.column_id, List.get?_eq_getElem?, List.getElem?_eq_getElem h2]
  · have h1 : (List.range schema.num_columns).get? (schema.num_key_columns + n) = Option.none := by
      rw [List.get?_eq_none]
      simpa using Nat.le_of_not_lt h
    have h2 : schema.columns.get? (schema.num_key_columns + n) = Option.none := by
      rw [List.get?_eq_none]
      exact Nat.le_of_not_lt h
    rw [h1, h2]
    rfl

/-- C7: a whole-row DELETE with a user-supplied timestamp issues one
`DeleteSubDoc` per non-key column of the schema plus one for the liveness
marker column, all at that timestamp; without a user timestamp it issues a
single whole-row `DeleteSubDoc` on the row path. -/
theorem delete_row_tombstones (req : QLWriteRequest) (schema : Schema)
    (row_path : LDocPath) :
    (req.has_user_timestamp_usec = true →
      deleteRow req schema row_path =
        (schema.columns.drop schema.num_key_columns).map
          (fun c =>
            QLMutation.deleteSubDoc ⟨row_path.doc_key, [SubKeyElem.colId c.id]⟩
              (some req.user_timestamp_usec)) ++
        [QLMutation.deleteSubDoc ⟨row_path.doc_key, [SubKeyElem.sysLiveness]⟩
          (some req.user_timestamp_usec)]) ∧
    (req.has_user_timestamp_usec = false →
      deleteRow req schema row_path = [QLMutation.deleteSubDoc row_path Option.none]) := by
  constructor
  · intro h
    unfold deleteRow
    rw [if_pos h]
    have h3 := congrArg
      (List.map (fun id =>
        QLMutation.deleteSubDoc ⟨row_path.doc_key, [SubKeyElem.colId id]⟩
          (some req.user_timestamp_usec)))
      (range_drop_map_colid schema)
    rw [List.map_map, List.map_map] at h3
    exact congrArg
      (fun l => l ++ [QLMutation.deleteSubDoc ⟨row_path.doc_key, [SubKeyElem.sysLiveness]⟩
        (some req.user_timestamp_usec)]) h3
  · intro h
    unfold deleteRow
    rw [if_neg (by simp [h])]

/-- Witness for C7: the fixture DELETE with user timestamp 1000 tombstones the
three non-key columns and the liveness marker; the same request without the
timestamp issues the single whole-row tombstone. -/
theorem delete_row_tombstones_witness :
    deleteRow exReqDelTs exSchema ⟨LDocKey.withHash 10 [QLValue.intV 7] [QLValue.intV 8], []⟩ =
      (exSchema.columns.drop exSchema.num_key_columns).map
        (fun c =>
          QLMutation.deleteSubDoc
            ⟨LDocKey.withHash 10 [QLValue.intV 7] [QLValue.intV 8], [SubKeyElem.colId c.id]⟩
            (some exReqDelTs.user_timestamp_usec)) ++
      [QLMutation.deleteSubDoc
        ⟨LDocKey.withHash 10 [QLValue.intV 7] [QLValue.intV 8], [SubKeyElem.sysLiveness]⟩
        (some exReqDelTs.user_timestamp_usec)] :=
  (delete_row_tombstones exReqDelTs exSchema
    ⟨LDocKey.withHash 10 [QLValue.intV 7] [QLValue.intV 8], []⟩).1 rfl

/-- `InitializeKeys` never changes the `require_read_` flag. -/
theorem initKeys_require_read (req : QLWriteRequest) (st : QLWriteOpState)
    (a b : Bool) : (initKeys req st a b).require_read = st.require_read := by
  unfold initKeys
  split <;> (dsimp only; split <;> rfl)

/-- The `require_read_` flag of a successfully initialized operation is the
`RequireRead` of its request. -/
theorem qlWriteInit_require_read (schema : Schema) (req : QLWriteRequest)
    (st : QLWriteOpState) (h : qlWriteInit schema req = Except.ok st) :
    st.require_read = requireRead req schema := by
  unfold qlWriteInit at h
  cases hfs : findStaticness schema false false req.column_values with
  | error e => rw [hfs] at h; exact absurd h (by simp)
  | ok p =>
      rw [hfs] at h
      cases h
      exact initKeys_require_read _ _ _ _

/-- `RequireRead` holds exactly for the four read-forcing request shapes. -/
theorem requireRead_iff (req : QLWriteRequest) (schema : Schema) :
    requireRead req schema = true ↔
      (req.has_if_expr = true ∨
       (req.column_refs.has_refs = true ∧
         (req.column_refs.ids ≠ [] ∨ req.column_refs.static_ids ≠ [])) ∨
       req.has_user_timestamp_usec = true ∨
       (0 < schema.num_range_key_columns ∧ req.range_column_values = [] ∧
         req.column_values = [])) := by
  simp [requireRead, requireReadForExpressions, isRangeOperation,
    Bool.or_eq_true, Bool.and_eq_true, List.isEmpty_iff, or_assoc, and_assoc]

/-- C4: for every successfully initialized write, `GetDocPathsToLock` declares
snapshot isolation exactly when the write requires a read — an IF expression,
referenced columns in expressions, a caller-supplied user timestamp, or a range
operation (range columns and target columns both absent on a schema with range
keys) — and serializable isolation otherwise; the declared path list consists
of the initialized hashed-key path and/or primary-key path. -/
theorem lock_paths_and_isolation (schema : Schema) (req : QLWriteRequest)
    (st : QLWriteOpState) (h : qlWriteInit schema req = Except.ok st) :
    ((getDocPathsToLock st).2 = IsolationLevel.SNAPSHOT_ISOLATION ↔
      (req.has_if_expr = true ∨
       (req.column_refs.has_refs = true ∧
         (req.column_refs.ids ≠ [] ∨ req.column_refs.static_ids ≠ [])) ∨
       req.has_user_timestamp_usec = true ∨
       (0 < schema.num_range_key_columns ∧ req.range_column_values = [] ∧
         req.column_values = []))) ∧
    (getDocPathsToLock st).1 = st.hashed_doc_path.toList ++ st.pk_doc_path.toList := by
  refine ⟨?_, rfl⟩
  rw [← requireRead_iff req schema, ← qlWriteInit_require_read schema req st h]
  unfold getDocPathsToLock
  cases hr : st.require_read <;> simp [hr]

/-- Witness for C4: the fixture conditional range-shaped update initializes to
`exStRange`, is locked at snapshot isolation, and declares exactly its hashed
path. -/
theorem lock_paths_and_isolation_witness :
    ((getDocPathsToLock exStRange).2 = IsolationLevel.SNAPSHOT_ISOLATION ↔
      (exReqRange.has_if_expr = true ∨
       (exReqRange.column_refs.has_refs = true ∧
         (exReqRange.column_refs.ids ≠ [] ∨ exReqRange.column_refs.static_ids ≠ [])) ∨
       exReqRange.has_user_timestamp_usec = true ∨
       (0 < exSchema.num_range_key_columns ∧ exReqRange.range_column_values = [] ∧
         exReqRange.column_values = []))) ∧
    (getDocPathsToLock exStRange).1 =
      exStRange.hashed_doc_path.toList ++ exStRange.pk_doc_path.toList :=
  lock_paths_and_isolation exSchema exReqRange exStRange (by rfl)

/-- C6: for a column mutation that is a collection merge (map/set extend,
map/set remove, list append, list prepend, list remove) or a sub-column write
(non-empty subscript arguments) — i.e. anything but a whole-value scalar
replacement — a valid caller-supplied user timestamp makes the operation fail
with the invalid-argument error before any mutation is produced; a whole-value
scalar replacement accepts the user timestamp and appends the insert carrying
it. -/
theorem user_timestamp_rejected_for_merges (schema : Schema) (st : QLWriteOpState)
    (evalE : Nat → QLTableRow → QLValue) (table_row : QLTableRow)
    (ttl : Option Nat) (ts : Int) (listOOB : LDocPath → Int → Bool)
    (cv : ColumnValue) (col : SchemaColumn) (base : LDocPath)
    (hid : cv.has_column_id = true)
    (hcol : schema.column_by_id cv.column_id = some col)
    (hpath : (if col.is_static then st.hashed_doc_path else st.pk_doc_path) = some base) :
    ((cv.write_instr ≠ TSWriteInstr.scalarInsert ∨ cv.subscript_args ≠ []) →
      applyColumnValue schema st evalE table_row ttl (some ts) listOOB cv =
        Except.error
          "User supplied timestamp is only allowed for replacing the whole collection") ∧
    (cv.write_instr = TSWriteInstr.scalarInsert → cv.subscript_args = [] →
      applyColumnValue schema st evalE table_row ttl (some ts) listOOB cv =
        Except.ok (ColResult.muts
          [QLMutation.insertSubDocument ⟨base.doc_key, [SubKeyElem.colId cv.column_id]⟩
            (evalE cv.expr table_row) ttl (some ts)])) := by
  constructor
  · intro hcase
    unfold applyColumnValue
    simp only [hid, hcol, hpath, Bool.not_true, Bool.false_eq_true, if_false]
    by_cases hsub : cv.subscript_args.isEmpty
    · have hinstr : cv.write_instr ≠ TSWriteInstr.scalarInsert := by
        rcases hcase with h | h
        · exact h
        · exact absurd (List.isEmpty_iff.1 hsub) h
      rw [if_pos hsub]
      cases hi : cv.write_instr <;>
        first
          | exact absurd hi hinstr
          | simp [checkUserTimestampForCollections]
    · rw [if_neg hsub]
      simp [checkUserTimestampForCollections]
  · intro hinstr hsub
    unfold applyColumnValue
    simp only [hid, hcol, hpath, Bool.not_true, Bool.false_eq_true, if_false]
    simp [hsub, hinstr]

/-- Witness for C6: a set-extend mutation of regular column 4 with user
timestamp 77 is rejected with the invalid-argument error, while a scalar insert
of the same column carries the timestamp through. -/
theorem user_timestamp_rejected_for_merges_witness :
    applyColumnValue exSchema exStPk exEvalE exRowRead Option.none (some 77) exListOOB
        ⟨true, 4, 0, TSWriteInstr.setExtend, []⟩ =
      Except.error
        "User supplied timestamp is only allowed for replacing the whole collection" ∧
    applyColumnValue exSchema exStPk exEvalE exRowRead Option.none (some 77) exListOOB
        ⟨true, 4, 0, TSWriteInstr.scalarInsert, []⟩ =
      Except.ok (ColResult.muts
        [QLMutation.insertSubDocument
          ⟨LDocKey.withHash 10 [QLValue.intV 7] [QLValue.intV 8], [SubKeyElem.colId 4]⟩
          (exEvalE 0 exRowRead) Option.none (some 77)]) :=
  ⟨(user_timestamp_rejected_for_merges exSchema exStPk exEvalE exRowRead Option.none 77
      exListOOB ⟨true, 4, 0, TSWriteInstr.setExtend, []⟩ exColV
      ⟨LDocKey.withHash 10 [QLValue.intV 7] [QLValue.intV 8], []⟩
      rfl (by rfl) (by rfl)).1 (Or.inl (by decide)),
   (user_timestamp_rejected_for_merges exSchema exStPk exEvalE exRowRead Option.none 77
      exListOOB ⟨true, 4, 0, TSWriteInstr.scalarInsert, []⟩ exColV
      ⟨LDocKey.withHash 10 [QLValue.intV 7] [QLValue.intV 8], []⟩
      rfl (by rfl) (by rfl)).2 rfl rfl⟩

/-- C1: for a write with an IF condition that evaluates to false against the
read row, `Apply` succeeds with no mutation appended to the write batch, the
result rowblock's first column is `[applied]` with value false, and when the
read row is non-empty the row continues with the pre-image values of the
referenced static and then non-static projection columns. -/
theorem conditional_write_not_applied (schema : Schema) (req : QLWriteRequest)
    (st0 : QLWriteOpState) (evalCond : QLTableRow → Bool)
    (evalE : Nat → QLTableRow → QLValue) (table_row : QLTableRow)
    (listOOB : LDocPath → Int → Bool) (range_rows : List (QLTableRow × LDocKey))
    (matchWhere : QLTableRow → Bool)
    (hif : req.has_if_expr = true) (hcond : evalCond table_row = false) :
    qlApply schema req st0 evalCond evalE table_row listOOB range_rows matchWhere =
      Except.ok ⟨some (isConditionSatisfied schema req.column_refs evalCond table_row).2,
        QLStatus.OK, []⟩ ∧
    ((isConditionSatisfied schema req.column_refs evalCond table_row).2).column_names.head? =
      some "[applied]" ∧
    ((isConditionSatisfied schema req.column_refs evalCond table_row).2).row.head? =
      some (QLValue.boolV false) ∧
    (table_row ≠ [] →
      ((isConditionSatisfied schema req.column_refs evalCond table_row).2).row =
        QLValue.boolV false ::
          (populateRow table_row (createProjections schema req.column_refs).1 ++
           populateRow table_row (createProjections schema req.column_refs).2) ∧
      ((isConditionSatisfied schema req.column_refs evalCond table_row).2).column_names =
        "[applied]" ::
          ((createProjections schema req.column_refs).1 ++
           (createProjections schema req.column_refs).2).map (fun c => c.name)) := by
  refine ⟨?_, ?_, ?_, ?_⟩
  · unfold qlApply
    simp only [hif, if_true]
    have hsc : (isConditionSatisfied schema req.column_refs evalCond table_row).1 = false := by
      simp [isConditionSatisfied, hcond]
    simp [hsc]
  · simp [isConditionSatisfied]
  · simp [isConditionSatisfied, hcond]
  · intro hrow
    have hne : table_row.isEmpty = false := by
      simpa [List.isEmpty_iff] using hrow
    constructor
    · simp [isConditionSatisfied, hcond, hne]
    · simp [isConditionSatisfied, hcond, hne]

/-- Witness for C1: the fixture conditional UPDATE against the read row with a
false condition appends nothing and returns the `[applied] = false` rowblock
with the pre-image of referenced column 4. -/
theorem conditional_write_not_applied_witness :
    qlApply exSchema exReqCond ⟨true, Option.none, Option.none⟩ exEvalFalse exEvalE
        exRowRead exListOOB [] exMatchAll =
      Except.ok ⟨some (isConditionSatisfied exSchema exReqCond.column_refs exEvalFalse exRowRead).2,
        QLStatus.OK, []⟩ ∧
    ((isConditionSatisfied exSchema exReqCond.column_refs exEvalFalse exRowRead).2).column_names.head? =
      some "[applied]" ∧
    ((isConditionSatisfied exSchema exReqCond.column_refs exEvalFalse exRowRead).2).row.head? =
      some (QLValue.boolV false) ∧
    (exRowRead ≠ [] →
      ((isConditionSatisfied exSchema exReqCond.column_refs exEvalFalse exRowRead).2).row =
        QLValue.boolV false ::
          (populateRow exRowRead (createProjections exSchema exReqCond.column_refs).1 ++
           populateRow exRowRead (createProjections exSchema exReqCond.column_refs).2) ∧
      ((isConditionSatisfied exSchema exReqCond.column_refs exEvalFalse exRowRead).2).column_names =
        "[applied]" ::
          ((createProjections exSchema exReqCond.column_refs).1 ++
           (createProjections exSchema exReqCond.column_refs).2).map (fun c => c.name)) :=
  conditional_write_not_applied exSchema exReqCond ⟨true, Option.none, Option.none⟩
    exEvalFalse exEvalE exRowRead exListOOB [] exMatchAll rfl rfl

/-! ## Claim theorems: the structured-read engine -/

/-- C8 (counterexample): a read with limit 1 over exactly one matching row
fills the result set to the limit on a non-aggregate query, yet no paging
token is attached, because the scan was exhausted — refuting the claimed "if
and only if". -/
theorem paging_iff_limit_cex :
    (qlReadExecute exSchema exReadReqLimit1 exMatchAll Option.none exMainOneRow 0).rows.length = 1 ∧
    exReadReqLimit1.has_limit = true ∧
    exReadReqLimit1.limit = 1 ∧
    exReadReqLimit1.is_aggregate = false ∧
    (qlReadExecute exSchema exReadReqLimit1 exMatchAll Option.none exMainOneRow 0).paging =
      Option.none :=
  ⟨rfl, rfl, rfl, rfl, rfl⟩

/-- A conditionally attached paging token is present exactly when its
condition holds and the scan has entries left. -/
theorem isSome_paging_iff (c : Prop) [Decidable c] (r : List IterEntry) :
    ((if c then setPagingStateIfNecessary r else Option.none).isSome = true) ↔
      (c ∧ ¬(r = [])) := by
  by_cases hc : c <;> simp [hc, setPagingStateIfNecessary, List.isEmpty_iff]

/-- C8 (amended): a read with limit 0 returns immediately with an empty result
set and no token; otherwise a paging token is attached exactly when the result
row count reached the row-count limit, the query is not an aggregate, and the
scan was not exhausted. -/
theorem limit_zero_and_paging (schema : Schema) (req : QLReadRequest)
    (matchFn : QLTableRow → Bool) (static_lookup : Option StaticLookupIter)
    (main : MainIter) (restart_in : Nat) :
    ((req.has_limit = true ∧ req.limit = 0) →
      qlReadExecute schema req matchFn static_lookup main restart_in =
        ⟨[], restart_in, Option.none, main.entries⟩) ∧
    (¬(req.has_limit = true ∧ req.limit = 0) →
      ((qlReadExecute schema req matchFn static_lookup main restart_in).paging.isSome ↔
        ((if req.has_limit then req.limit else sizeTMax) ≤
            (qlReadExecute schema req matchFn static_lookup main restart_in).rows.length ∧
         req.is_aggregate = false ∧
         (qlReadExecute schema req matchFn static_lookup main restart_in).remaining ≠ []))) := by
  constructor
  · intro h
    unfold qlReadExecute
    rw [if_pos h]
  · intro h
    unfold qlReadExecute
    rw [if_neg h]
    dsimp only
    cases hagg : req.is_aggregate with
    | true => simp [hagg]
    | false =>
        simp only [hagg, Bool.false_eq_true, false_and, if_false, and_true, true_and,
          eq_self_iff_true, ne_eq]
        exact isSome_paging_iff _ _

/-- Witness for C8: the fixture read with limit 0 over a non-empty scan returns
the empty result immediately, leaving the restart hint untouched and attaching
no token. -/
theorem limit_zero_and_paging_witness :
    qlReadExecute exSchema exReadReqLimit0 exMatchAll Option.none exMainOneRow 7 =
      ⟨[], 7, Option.none, exMainOneRow.entries⟩ :=
  (limit_zero_and_paging exSchema exReadReqLimit0 exMatchAll Option.none exMainOneRow 7).1
    ⟨rfl, rfl⟩

/-- C5: a read that performed both the extra static-row lookup (whose iterator
reported restart hint 5) and the main scan (restart hint 3) returns restart
hint 3 — the main iterator's hint only — not the maximum (5) of the hints of
the sub-scans it performed: the static lookup iterator's hint is never read. -/
theorem restart_hint_drops_static_lookup_hint :
    (qlReadExecute exSchema exReadReqNoLimit exMatchAll
        (some ⟨Option.none, 5⟩) ⟨[], 3⟩ 0).restart_ht = 3 ∧
    Nat.max 5 3 = 5 ∧
    (qlReadExecute exSchema exReadReqNoLimit exMatchAll
        (some ⟨Option.none, 5⟩) ⟨[], 3⟩ 0).restart_ht ≠ Nat.max 5 3 := by
  refine ⟨rfl, rfl, ?_⟩
  decide

/-! ## Claim theorems: the sorted-set ADD -/

/-- Key membership after a `SetChild`-style assignment. -/
theorem assocSet_any_key {α β : Type} [DecidableEq α] (l : List (α × β)) (k : α)
    (v : β) (m : α) :
    ((assocSet l k v).any (fun p => decide (p.1 = m))) =
      (decide (k = m) || l.any (fun p => decide (p.1 = m))) := by
  induction l with
  | nil => simp [assocSet]
  | cons hd tl ih =>
      obtain ⟨k', v'⟩ := hd
      by_cases hk : k' = k
      · subst hk
        by_cases hm : k' = m <;> simp [assocSet, hm]
      · simp only [assocSet, if_neg hk, List.any_cons, ih]
        cases hb : decide (k' = m) <;> cases hb2 : decide (k = m) <;>
          simp [hb, hb2, Bool.or_left_comm]

/-- Lookup after a `SetChild`-style assignment. -/
theorem assocGet_set {α β : Type} [DecidableEq α] (l : List (α × β)) (k m : α) (v : β) :
    assocGet (assocSet l k v) m = if k = m then some v else assocGet l m := by
  induction l with
  | nil => simp [assocSet, assocGet]
  | cons hd tl ih =>
      obtain ⟨k', v'⟩ := hd
      by_cases hk : k' = k
      · subst hk
        by_cases hm : k' = m <;> simp [assocSet, assocGet, hm]
      · by_cases hm : k' = m
        · subst hm
          have hkm : k ≠ k' := fun h => hk h.symm
          simp [assocSet, hk, assocGet, hkm]
        · simp [assocSet, hk, assocGet, hm, ih]

/-- Member mention in the reverse map after a `SetChild`-style assignment. -/
theorem revHas_assocSet (rev : List (ZMember × ZScore)) (k : ZMember) (v : ZScore)
    (m : ZMember) :
    revHas (assocSet rev k v) m = (decide (k = m) || revHas rev m) :=
  assocSet_any_key rev k v m

/-- Every entry of an association list after a `SetChild`-style assignment is
the assigned pair or an original entry. -/
theorem mem_assocSet {α β : Type} [DecidableEq α] (l : List (α × β)) (k : α) (v : β)
    (p : α × β) (h : p ∈ assocSet l k v) : p = (k, v) ∨ p ∈ l := by
  induction l with
  | nil => simpa [assocSet] using h
  | cons hd tl ih =>
      obtain ⟨k', v'⟩ := hd
      by_cases hk : k' = k
      · subst hk
        rw [assocSet, if_pos rfl] at h
        rcases List.mem_cons.1 h with h2 | h2
        · exact Or.inl h2
        · exact Or.inr (List.mem_cons_of_mem _ h2)
      · rw [assocSet, if_neg hk] at h
        rcases List.mem_cons.1 h with h2 | h2
        · exact Or.inr (by simp [h2])
        · rcases ih h2 with h3 | h3
          · exact Or.inl h3
          · exact Or.inr (List.mem_cons_of_mem _ h3)

/-- A successful association-list lookup is a membership. -/
theorem assocGet_mem {α β : Type} [DecidableEq α] (l : List (α × β)) (k : α) (v : β)
    (h : assocGet l k = some v) : (k, v) ∈ l := by
  induction l with
  | nil => simp [assocGet] at h
  | cons hd tl ih =>
      obtain ⟨k', v'⟩ := hd
      by_cases hk : k' = k
      · subst hk
        rw [assocGet, if_pos rfl] at h
        cases h
        exact List.mem_cons_self _ _
      · rw [assocGet, if_neg hk] at h
        exact List.mem_cons_of_mem _ (ih h)

/-- A forward-map assignment whose child mentions only other members preserves
the absence of a member. -/
theorem fwdHas_assocSet (fwd : List (ZScore × List (ZMember × ZFwdVal))) (s : ZScore)
    (inner : List (ZMember × ZFwdVal)) (m : ZMember)
    (hf : fwdHas fwd m = false)
    (hi : inner.any (fun q => decide (q.1 = m)) = false) :
    fwdHas (assocSet fwd s inner) m = false := by
  simp only [fwdHas, List.any_eq_false] at hf ⊢
  intro p hp
  rcases mem_assocSet fwd s inner p hp with h | h
  · subst h
    simp [hi]
  · exact hf p h

/-- The child found at any score of a forward map that does not mention a member
does not mention it either. -/
theorem fwd_inner_no_mention (fwd : List (ZScore × List (ZMember × ZFwdVal)))
    (s : ZScore) (m : ZMember) (hf : fwdHas fwd m = false) :
    ((assocGet fwd s).getD []).any (fun q => decide (q.1 = m)) = false := by
  cases hg : assocGet fwd s with
  | none => simp
  | some innerFound =>
      have hmem := assocGet_mem fwd s innerFound hg
      simp only [fwdHas, List.any_eq_false] at hf
      have h2 := hf _ hmem
      exact Bool.eq_false_iff.2 h2

/-- `GetOrAddChild` plus `SetChild` of another member preserves the absence of a
member from the forward map. -/
theorem fwdHas_fwdAdd (fwd : List (ZScore × List (ZMember × ZFwdVal))) (s : ZScore)
    (mi m : ZMember) (v : ZFwdVal) (hne : mi ≠ m) (hf : fwdHas fwd m = false) :
    fwdHas (fwdAdd fwd s mi v) m = false := by
  unfold fwdAdd
  apply fwdHas_assocSet _ _ _ _ hf
  rw [assocSet_any_key]
  simp [hne, fwd_inner_no_mention fwd s m hf]

/-- Applying reverse-map children that do not mention a member leaves its
lookup unchanged. -/
theorem foldl_assocSet_get (rev : List (ZMember × ZScore))
    (base : List (ZMember × ZScore)) (m : ZMember) (h : revHas rev m = false) :
    assocGet (rev.foldl (fun r p => assocSet r p.1 p.2) base) m = assocGet base m := by
  induction rev generalizing base with
  | nil => rfl
  | cons p tl ih =>
      simp only [revHas, List.any_cons, Bool.or_eq_false_iff] at h
      rw [List.foldl_cons, ih _ (by simpa [revHas] using h.2), assocGet_set]
      simp only [decide_eq_false_iff_not] at h
      rw [if_neg h.1]

/-- A lookup is absent after applying reverse-map children exactly when it was
absent before and the children do not mention it. -/
theorem foldl_assocSet_isNone (rev : List (ZMember × ZScore))
    (base : List (ZMember × ZScore)) (m : ZMember) :
    (assocGet (rev.foldl (fun r p => assocSet r p.1 p.2) base) m = Option.none) ↔
      (assocGet base m = Option.none ∧ revHas rev m = false) := by
  induction rev generalizing base with
  | nil => simp [revHas]
  | cons p tl ih =>
      rw [List.foldl_cons, ih, assocGet_set]
      by_cases hp : p.1 = m <;> simp [hp, revHas, List.any_cons]

/-- The stored type of a tracked sorted-set state is always `SORTEDSET` or
`NONE`, so the `WRONG_TYPE` guard of the ADD never fires on it. -/
theorem zstateType_valid (st : ZState) :
    ¬(zstateType st ≠ RedisDataType.SORTEDSET ∧ zstateType st ≠ RedisDataType.NONE) := by
  unfold zstateType
  split <;> simp

/-- The write of one ADD, unfolded past the type guard. -/
theorem zaddWriteOf_eq (opts : ZAddOptions) (subkeys : List (ZScore × ZMember))
    (st : ZState) :
    zaddWriteOf opts subkeys st =
      (if (if (subkeys.foldl (zaddStep opts st) ⟨0, 0, [], []⟩).new_elements_added > 0 then
            some (getCardinality st +
              (subkeys.foldl (zaddStep opts st) ⟨0, 0, [], []⟩).new_elements_added)
          else Option.none).isSome ∨
          (subkeys.foldl (zaddStep opts st) ⟨0, 0, [], []⟩).fwd ≠ [] ∨
          (subkeys.foldl (zaddStep opts st) ⟨0, 0, [], []⟩).rev ≠ [] then
        some ⟨zstateType st = RedisDataType.NONE,
          if (subkeys.foldl (zaddStep opts st) ⟨0, 0, [], []⟩).new_elements_added > 0 then
            some (getCardinality st +
              (subkeys.foldl (zaddStep opts st) ⟨0, 0, [], []⟩).new_elements_added)
          else Option.none,
          (subkeys.foldl (zaddStep opts st) ⟨0, 0, [], []⟩).fwd,
          (subkeys.foldl (zaddStep opts st) ⟨0, 0, [], []⟩).rev⟩
      else Option.none) := by
  unfold zaddWriteOf applySortedSetAdd
  rw [if_neg (zstateType_valid st)]

/-- One executed ADD is the application of its write. -/
theorem zaddApplyOnce_eq (opts : ZAddOptions) (subkeys : List (ZScore × ZMember))
    (st : ZState) :
    zaddApplyOnce opts subkeys st = applyZWrite st (zaddWriteOf opts subkeys st) := by
  unfold zaddApplyOnce zaddWriteOf applySortedSetAdd
  simp only [if_neg (zstateType_valid st)]

/-- An NX ADD step for a member already in the reverse map changes nothing. -/
theorem zaddStep_nx_found (opts : ZAddOptions) (st : ZState) (acc : ZAddAcc)
    (sk : ZScore × ZMember) (s0 : ZScore)
    (h1 : opts.update_options = ZUpdateOptions.NX)
    (hlk : zlookup st sk.2 = some s0) :
    zaddStep opts st acc sk = acc := by
  unfold zaddStep
  simp [hlk, h1]

/-- An XX ADD step for a member missing from the reverse map changes nothing. -/
theorem zaddStep_xx_missing (opts : ZAddOptions) (st : ZState) (acc : ZAddAcc)
    (sk : ZScore × ZMember)
    (h1 : opts.update_options = ZUpdateOptions.XX)
    (hlk : zlookup st sk.2 = Option.none) :
    zaddStep opts st acc sk = acc := by
  unfold zaddStep
  simp [hlk, h1]

/-- An ADD step for a different member preserves the absence of a member from
the accumulated entries. -/
theorem zaddStep_mention_ne (opts : ZAddOptions) (st : ZState) (acc : ZAddAcc)
    (sk : ZScore × ZMember) (m : ZMember) (hne : sk.2 ≠ m)
    (hr : revHas acc.rev m = false) (hf : fwdHas acc.fwd m = false) :
    revHas (zaddStep opts st acc sk).rev m = false ∧
    fwdHas (zaddStep opts st acc sk).fwd m = false := by
  unfold zaddStep
  dsimp only
  constructor
  · split_ifs <;>
      first
        | exact hr
        | (rw [revHas_assocSet]; simp [hne, hr])
  · have tomb : ∀ f : List (ZScore × List (ZMember × ZFwdVal)), fwdHas f m = false →
        ∀ s0 : ZScore, fwdHas (assocSet f s0 [(sk.2, ZFwdVal.tombstone)]) m = false := by
      intro f hfm s0
      apply fwdHas_assocSet _ _ _ _ hfm
      simp [hne]
    split_ifs <;>
      first
        | exact hf
        | exact tomb acc.fwd hf _
        | exact fwdHas_fwdAdd _ _ _ _ _ hne hf
        | exact fwdHas_fwdAdd _ _ _ _ _ hne (tomb acc.fwd hf _)

/-- Over a whole ADD batch, a member that is skipped by its update option (NX
and present, or XX and absent) and untouched by the other members is never
mentioned in the accumulated entries. -/
theorem zadd_fold_no_mention (opts : ZAddOptions) (st : ZState) (m : ZMember)
    (hcase : (opts.update_options = ZUpdateOptions.NX ∧ (zlookup st m).isSome = true) ∨
             (opts.update_options = ZUpdateOptions.XX ∧ zlookup st m = Option.none)) :
    ∀ (subkeys : List (ZScore × ZMember)) (acc : ZAddAcc),
      revHas acc.rev m = false → fwdHas acc.fwd m = false →
      revHas (subkeys.foldl (zaddStep opts st) acc).rev m = false ∧
      fwdHas (subkeys.foldl (zaddStep opts st) acc).fwd m = false := by
  intro subkeys
  induction subkeys with
  | nil => exact fun acc hr hf => ⟨hr, hf⟩
  | cons sk tl ih =>
      intro acc hr hf
      rw [List.foldl_cons]
      by_cases hm : sk.2 = m
      · rcases hcase with ⟨h1, h2⟩ | ⟨h1, h2⟩
        · obtain ⟨s0, hs0⟩ := Option.isSome_iff_exists.1 h2
          rw [zaddStep_nx_found opts st acc sk s0 h1 (by rw [hm]; exact hs0)]
          exact ih acc hr hf
        · rw [zaddStep_xx_missing opts st acc sk h1 (by rw [hm]; exact h2)]
          exact ih acc hr hf
      · have hstep := zaddStep_mention_ne opts st acc sk m hm hr hf
        exact ih _ hstep.1 hstep.2

/-- A member never mentioned in the accumulated entries is not mentioned in the
emitted write. -/
theorem zwriteMentions_of_fold (opts : ZAddOptions) (subkeys : List (ZScore × ZMember))
    (st : ZState) (m : ZMember)
    (hr : revHas (subkeys.foldl (zaddStep opts st) ⟨0, 0, [], []⟩).rev m = false)
    (hf : fwdHas (subkeys.foldl (zaddStep opts st) ⟨0, 0, [], []⟩).fwd m = false) :
    zwriteMentions (zaddWriteOf opts subkeys st) m = false := by
  rw [zaddWriteOf_eq]
  split_ifs <;> simp [zwriteMentions, hr, hf]

/-- A member never mentioned in the accumulated reverse entries keeps its
stored score across the application of the write. -/
theorem zlookup_apply_of_fold (opts : ZAddOptions) (subkeys : List (ZScore × ZMember))
    (st : ZState) (m : ZMember)
    (hr : revHas (subkeys.foldl (zaddStep opts st) ⟨0, 0, [], []⟩).rev m = false) :
    zlookup (zaddApplyOnce opts subkeys st) m = zlookup st m := by
  rw [zaddApplyOnce_eq, zaddWriteOf_eq]
  split_ifs <;>
    first
      | rfl
      | (unfold applyZWrite zlookup; exact foldl_assocSet_get _ _ _ hr)

/-- An ADD step of a fresh member under the plain (none) update option counts
it as a new element and records exactly it in the reverse entries. -/
theorem zaddStep_fresh (opts : ZAddOptions) (st : ZState) (acc : ZAddAcc)
    (sk : ZScore × ZMember)
    (h1 : opts.update_options = ZUpdateOptions.UNONE)
    (hlk : zlookup st sk.2 = Option.none) :
    (zaddStep opts st acc sk).new_elements_added = acc.new_elements_added + 1 ∧
    ∀ x, revHas (zaddStep opts st acc sk).rev x =
      (decide (sk.2 = x) || revHas acc.rev x) := by
  unfold zaddStep
  dsimp only
  constructor
  · simp [hlk, h1]
  · intro x
    simp only [hlk, h1]
    rw [if_pos (by simp), revHas_assocSet]

/-- Over an ADD batch of fresh members under the plain update option, the
new-element count grows by the batch length and the accumulated reverse
entries mention exactly the batch members. -/
theorem zadd_fold_fresh (opts : ZAddOptions) (st : ZState)
    (h1 : opts.update_options = ZUpdateOptions.UNONE) :
    ∀ (b : List (ZScore × ZMember)) (acc : ZAddAcc),
      (∀ sk ∈ b, zlookup st sk.2 = Option.none) →
      ((b.foldl (zaddStep opts st) acc).new_elements_added =
        acc.new_elements_added + b.length ∧
       ∀ x, revHas ((b.foldl (zaddStep opts st) acc)).rev x =
         (decide (x ∈ zmembers b) || revHas acc.rev x)) := by
  intro b
  induction b with
  | nil =>
      intro acc hfresh
      simp [zmembers]
  | cons sk tl ih =>
      intro acc hfresh
      rw [List.foldl_cons]
      have hstep := zaddStep_fresh opts st acc sk h1 (hfresh sk (by simp))
      obtain ⟨ihn, ihr⟩ := ih (zaddStep opts st acc sk)
        (fun k hk => hfresh k (List.mem_cons_of_mem _ hk))
      constructor
      · rw [ihn, hstep.1, List.length_cons]
        push_cast
        ring
      · intro x
        rw [ihr x, hstep.2 x]
        by_cases hx : x = sk.2
        · subst hx
          simp [zmembers]
        · have h2 : ¬(sk.2 = x) := fun h => hx h.symm
          have h3 : (x == sk.2) = false := beq_eq_false_iff_ne.2 hx
          simp [zmembers, hx, h2, h3]

/-- One ADD of fresh members under the plain update option writes the stored
cardinality plus the batch size, and afterwards exactly the old and the new
members are present. -/
theorem zaddOnce_fresh_card (opts : ZAddOptions) (b : List (ZScore × ZMember))
    (st : ZState) (h1 : opts.update_options = ZUpdateOptions.UNONE)
    (hfresh : ∀ sk ∈ b, zlookup st sk.2 = Option.none) :
    getCardinality (zaddApplyOnce opts b st) = getCardinality st + b.length ∧
    ∀ x, (zlookup (zaddApplyOnce opts b st) x = Option.none ↔
      (zlookup st x = Option.none ∧ x ∉ zmembers b)) := by
  obtain ⟨hn, hr⟩ := zadd_fold_fresh opts st h1 b ⟨0, 0, [], []⟩ hfresh
  rw [zaddApplyOnce_eq, zaddWriteOf_eq]
  by_cases hb : b = []
  · subst hb
    simp [applyZWrite, zmembers]
  · have hlen0 : 0 < b.length := List.length_pos.2 hb
    have hlen : (0 : Int) < (b.length : Int) := by exact_mod_cast hlen0
    have hnea : (b.foldl (zaddStep opts st) ⟨0, 0, [], []⟩).new_elements_added =
        (b.length : Int) := by simpa using hn
    rw [if_pos (Or.inl (by simp [hnea, hlen]))]
    constructor
    · simp [applyZWrite, getCardinality, hnea, hlen]
    · intro x
      unfold applyZWrite zlookup
      dsimp only
      rw [foldl_assocSet_isNone, hr x]
      simp [revHas, zlookup]

/-- A sequence of plain ADDs of pairwise-fresh members adds the total member
count to the stored cardinality. -/
theorem zadd_sequence_card (opts : ZAddOptions)
    (h1 : opts.update_options = ZUpdateOptions.UNONE) :
    ∀ (batches : List (List (ZScore × ZMember))) (st : ZState),
      ((batches.map zmembers).flatten).Nodup →
      (∀ m ∈ (batches.map zmembers).flatten, zlookup st m = Option.none) →
      getCardinality (batches.foldl (fun s b => zaddApplyOnce opts b s) st) =
        getCardinality st + ((batches.map zmembers).flatten).length := by
  intro batches
  induction batches with
  | nil =>
      intro st _ _
      simp
  | cons b tl ih =>
      intro st hnodup hfresh
      rw [List.foldl_cons]
      rw [List.map_cons, List.flatten_cons] at hnodup hfresh ⊢
      rw [List.nodup_append] at hnodup
      have hfb : ∀ sk ∈ b, zlookup st sk.2 = Option.none := by
        intro sk hsk
        exact hfresh _ (List.mem_append_left _ (List.mem_map_of_mem _ hsk))
      obtain ⟨hcard, hmem⟩ := zaddOnce_fresh_card opts b st h1 hfb
      have hfresh2 : ∀ m ∈ (tl.map zmembers).flatten,
          zlookup (zaddApplyOnce opts b st) m = Option.none := by
        intro m hm
        exact (hmem m).2 ⟨hfresh m (List.mem_append_right _ hm),
          fun hmb => hnodup.2.2 hmb hm⟩
      rw [ih (zaddApplyOnce opts b st) hnodup.2.1 hfresh2, hcard, List.length_append]
      simp only [zmembers, List.length_map]
      push_cast
      ring

/-- C3: sorted-set ADD — with `NX`, a member already present in the reverse map
is never written and its score never changes; with `XX`, a member not already
present is never written and is not created; a plain ADD of fresh distinct
members writes the previously stored counter plus the number of new members;
and after a sequence of plain ADDs of distinct new members from the empty
state, the stored cardinality counter equals the total number N of members
added. -/
theorem sorted_set_add_nx_xx_cardinality :
    (∀ (opts : ZAddOptions) (st : ZState) (subkeys : List (ZScore × ZMember))
        (m : ZMember) (s : ZScore),
      opts.update_options = ZUpdateOptions.NX → zlookup st m = some s →
      zwriteMentions (zaddWriteOf opts subkeys st) m = false ∧
      zlookup (zaddApplyOnce opts subkeys st) m = some s) ∧
    (∀ (opts : ZAddOptions) (st : ZState) (subkeys : List (ZScore × ZMember))
        (m : ZMember),
      opts.update_options = ZUpdateOptions.XX → zlookup st m = Option.none →
      zwriteMentions (zaddWriteOf opts subkeys st) m = false ∧
      zlookup (zaddApplyOnce opts subkeys st) m = Option.none) ∧
    (∀ (opts : ZAddOptions) (st : ZState) (b : List (ZScore × ZMember)),
      opts.update_options = ZUpdateOptions.UNONE →
      (∀ sk ∈ b, zlookup st sk.2 = Option.none) → b ≠ [] →
      ∃ zw, zaddWriteOf opts b st = some zw ∧
        zw.card = some (getCardinality st + b.length)) ∧
    (∀ (opts : ZAddOptions) (batches : List (List (ZScore × ZMember))),
      opts.update_options = ZUpdateOptions.UNONE →
      ((batches.map zmembers).flatten).Nodup →
      getCardinality (zaddSequence opts batches) =
        ((batches.map zmembers).flatten).length) := by
  refine ⟨?_, ?_, ?_, ?_⟩
  · intro opts st subkeys m s h1 h2
    have hfold := zadd_fold_no_mention opts st m (Or.inl ⟨h1, by simp [h2]⟩)
      subkeys ⟨0, 0, [], []⟩ rfl rfl
    refine ⟨zwriteMentions_of_fold opts subkeys st m hfold.1 hfold.2, ?_⟩
    rw [zlookup_apply_of_fold opts subkeys st m hfold.1]
    exact h2
  · intro opts st subkeys m h1 h2
    have hfold := zadd_fold_no_mention opts st m (Or.inr ⟨h1, h2⟩)
      subkeys ⟨0, 0, [], []⟩ rfl rfl
    refine ⟨zwriteMentions_of_fold opts subkeys st m hfold.1 hfold.2, ?_⟩
    rw [zlookup_apply_of_fold opts subkeys st m hfold.1]
    exact h2
  · intro opts st b h1 hfresh hb
    obtain ⟨hn, _⟩ := zadd_fold_fresh opts st h1 b ⟨0, 0, [], []⟩ hfresh
    have hlen0 : 0 < b.length := List.length_pos.2 hb
    have hlen : (0 : Int) < (b.length : Int) := by exact_mod_cast hlen0
    have hnea : (b.foldl (zaddStep opts st) ⟨0, 0, [], []⟩).new_elements_added =
        (b.length : Int) := by simpa using hn
    rw [zaddWriteOf_eq, if_pos (Or.inl (by simp [hnea, hlen]))]
    refine ⟨_, rfl, ?_⟩
    simp [hnea, hlen]
  · intro opts batches h1 hnodup
    have hseq := zadd_sequence_card opts h1 batches emptyZState hnodup (fun m _ => rfl)
    simpa [zaddSequence, getCardinality, emptyZState] using hseq

/-- Witness for C3: on a stored sorted set with member "a" at score 1, an NX
ADD of ("a", 2) writes nothing about "a" and keeps its score; an XX ADD of a
missing "b" does not create it; and two plain ADDs of the three fresh members
"x", "y", "z" from the empty state leave the cardinality counter at 3. -/
theorem sorted_set_add_nx_xx_cardinality_witness :
    (zwriteMentions (zaddWriteOf ⟨ZUpdateOptions.NX, false, false⟩ [(2, "a")]
        ⟨some 1, [("a", 1)]⟩) "a" = false ∧
     zlookup (zaddApplyOnce ⟨ZUpdateOptions.NX, false, false⟩ [(2, "a")]
        ⟨some 1, [("a", 1)]⟩) "a" = some 1) ∧
    (zwriteMentions (zaddWriteOf ⟨ZUpdateOptions.XX, false, false⟩ [(4, "b")]
        ⟨some 1, [("a", 1)]⟩) "b" = false ∧
     zlookup (zaddApplyOnce ⟨ZUpdateOptions.XX, false, false⟩ [(4, "b")]
        ⟨some 1, [("a", 1)]⟩) "b" = Option.none) ∧
    getCardinality (zaddSequence ⟨ZUpdateOptions.UNONE, false, false⟩
        [[(5, "x")], [(6, "y"), (7, "z")]]) =
      (([[(5, "x")], [(6, "y"), (7, "z")]].map zmembers).flatten).length :=
  ⟨sorted_set_add_nx_xx_cardinality.1 _ _ _ _ _ rfl rfl,
   sorted_set_add_nx_xx_cardinality.2.1 _ _ _ _ rfl rfl,
   sorted_set_add_nx_xx_cardinality.2.2.2 _ _ rfl (by decide)⟩

end DocOp
